import Mathlib

/-!
Blood bank record manager: embedding of `main.cpp`.

A shallow embedding of the blood bank console program.

* A `std::string` is its sequence of bytes, each byte a natural number
  (`CppString`).  String literals of the source are written `lit "..."`.
* `std::set<string>` is the strictly ascending list of its elements (the
  order in which a range-`for` visits them), built by repeated insertion
  with the byte-lexicographic comparison of `std::string`.
* `cout` is the sequence of bytes written to it; every method of
  `BloodBank` returns the store after the call together with the bytes it
  printed.
* `int` values (ages, counters) are integers / naturals without wrap-around:
  no arithmetic is done on an age, and a counter is bounded by the number
  of stored donors.
* `cin` is what the user types pass by pass of the menu loop: integer
  numerals of any size where an integer is read, and lines.  A numeral that
  does not fit an `int` makes the stream fail; the source never clears the
  stream, so from then on nothing is read.  Text that is not a numeral where
  an integer is read, and the end of the input, are not part of the model.
-/

namespace BloodBankSpec

/-! Section: Strings -/

/-- A `std::string`: the sequence of its bytes. -/
abbrev CppString := List Nat

/-- The bytes of an ASCII string literal of the source. -/
def lit (s : String) : CppString := s.data.map Char.toNat

/-- The function `toupper` of `<cctype>` in the "C" locale: the bytes of the
letters a to z (97..122) are moved to those of A to Z (65..90), every other
byte, also one above 127, is returned as it is. -/
def toupper (c : Nat) : Nat :=
  if 97 ≤ c ∧ c ≤ 122 then c - 32 else c

/-- Function `toUpperCase` (main.cpp:9-14): every position of the string is
overwritten with its `toupper`. -/
def toUpperCase (str : CppString) : CppString :=
  str.map toupper

/-- The `operator<` of `std::string`: byte-lexicographic comparison, a proper
prefix being smaller. -/
def strLt : CppString → CppString → Bool
  | [], [] => false
  | [], _ :: _ => true
  | _ :: _, [] => false
  | a :: as, b :: bs =>
    if a < b then true else if b < a then false else strLt as bs

/-! Section: `std::set<string>` -/

/-- Member `std::set<string>::insert`: the element is put at its place in the
ascending order; an element equivalent to one already there is dropped. -/
def setInsert (x : CppString) : List CppString → List CppString
  | [] => [x]
  | y :: ys =>
    if strLt x y then x :: y :: ys
    else if strLt y x then y :: setInsert x ys
    else y :: ys

/-- Construction of a `std::set<string>` from an initializer list: the
elements are inserted one after the other. -/
def mkSet (init : List CppString) : List CppString :=
  init.foldl (fun s x => setInsert x s) []

/-- The test `s.find(x) != s.end()`: some element of the set is equivalent to `x`
under the comparison (neither is smaller than the other). -/
def setContains (s : List CppString) (x : CppString) : Bool :=
  s.any (fun y => !strLt x y && !strLt y x)

/-! Section: Validation -/

/-- Function `isValidBloodGroup` (main.cpp:17-20): the set of the eight
literals is built and searched for the argument as it is given. -/
def isValidBloodGroup (bloodGroup : CppString) : Bool :=
  let validBloodGroups := mkSet [lit "A+", lit "A-", lit "B+", lit "B-",
    lit "AB+", lit "AB-", lit "O+", lit "O-"]
  setContains validBloodGroups bloodGroup

/-- The eight blood-group values of the specification, in the order in
which the specification enumerates them. -/
def bloodGroupValues : List CppString :=
  [lit "A+", lit "A-", lit "B+", lit "B-", lit "AB+", lit "AB-", lit "O+", lit "O-"]

/-! Section: Output -/

/-- The line printed by the methods of `BloodBank` for a blood group that is
not valid (main.cpp:56, 70, 110, 125). -/
def invalidBloodGroupMessage : CppString :=
  lit "Invalid blood group! Must be one of: A+, A-, B+, B-, AB+, AB-, O+, O-\n"

/-- The line printed by `addDonor` for an age outside the donor range
(main.cpp:60). -/
def invalidAgeMessage : CppString :=
  lit "Invalid age! Donors must be between 18 and 65 years old.\n"

/-- What `cout << n` writes for a non-negative `int`: its decimal digits. -/
def showNat (n : Nat) : CppString :=
  (Nat.toDigits 10 n).map Char.toNat

/-- What `cout << n` writes for an `int`: a minus sign for a negative value,
then the decimal digits. -/
def showInt : Int → CppString
  | Int.ofNat n => showNat n
  | Int.negSucc n => 45 :: showNat (n + 1)

/-- What `cout << string(60, '-') << endl` writes. -/
def separatorLine : CppString :=
  List.replicate 60 45 ++ lit "\n"

/-! Section: Records and the store -/

/-- Class `Donor` (main.cpp:23-32). -/
structure Donor where
  name : CppString
  bloodGroup : CppString
  age : Int
  address : CppString
  deriving DecidableEq

/-- Class `Patient` (main.cpp:35-44). -/
structure Patient where
  name : CppString
  bloodGroup : CppString
  age : Int
  address : CppString
  deriving DecidableEq

/-- The data members of class `BloodBank` (main.cpp:49-50). -/
structure BloodBank where
  donors : List Donor
  patients : List Patient
  deriving DecidableEq

/-- The store of a freshly constructed `BloodBank` (main.cpp:165). -/
def BloodBank.empty : BloodBank := ⟨[], []⟩

/-- Method `BloodBank::addDonor` (main.cpp:54-65). -/
def BloodBank.addDonor (bb : BloodBank) (name bloodGroup : CppString) (age : Int)
    (address : CppString) : BloodBank × CppString :=
  if !isValidBloodGroup bloodGroup then
    (bb, invalidBloodGroupMessage)
  else if age < 18 ∨ age > 65 then
    (bb, invalidAgeMessage)
  else
    (BloodBank.mk (bb.donors ++ [Donor.mk name bloodGroup age address]) bb.patients,
      lit "Donor '" ++ name ++ lit "' added successfully.\n")

/-- Method `BloodBank::addPatient` (main.cpp:68-75). -/
def BloodBank.addPatient (bb : BloodBank) (name bloodGroup : CppString) (age : Int)
    (address : CppString) : BloodBank × CppString :=
  if !isValidBloodGroup bloodGroup then
    (bb, invalidBloodGroupMessage)
  else
    (BloodBank.mk bb.donors (bb.patients ++ [Patient.mk name bloodGroup age address]),
      lit "Patient '" ++ name ++ lit "' added successfully.\n")

/-- Method `BloodBank::displayDonors` (main.cpp:78-90). -/
def BloodBank.displayDonors (bb : BloodBank) : BloodBank × CppString :=
  if bb.donors.isEmpty then
    (bb, lit "No donors available.\n")
  else
    (bb, lit "\nList of Donors:\n" ++ separatorLine ++
      bb.donors.flatMap (fun donor =>
        lit "Name: " ++ donor.name ++ lit ", Blood Group: " ++ donor.bloodGroup ++
          lit ", Age: " ++ showInt donor.age ++ lit ", Address: " ++ donor.address ++ lit "\n") ++
      separatorLine)

/-- Method `BloodBank::displayPatients` (main.cpp:93-105). -/
def BloodBank.displayPatients (bb : BloodBank) : BloodBank × CppString :=
  if bb.patients.isEmpty then
    (bb, lit "No patients available.\n")
  else
    (bb, lit "\nList of Patients:\n" ++ separatorLine ++
      bb.patients.flatMap (fun patient =>
        lit "Name: " ++ patient.name ++ lit ", Blood Group: " ++ patient.bloodGroup ++
          lit ", Age: " ++ showInt patient.age ++ lit ", Address: " ++ patient.address ++ lit "\n") ++
      separatorLine)

/-- The counting loop of main.cpp:113-118 and main.cpp:151-156: the counter
starts at 0 and is incremented at every donor whose `bloodGroup` compares
equal to `group`. -/
def countDonors (donors : List Donor) (group : CppString) : Nat :=
  donors.foldl (fun count donor => if donor.bloodGroup = group then count + 1 else count) 0

/-- Method `BloodBank::checkBloodAvailability` (main.cpp:108-120). -/
def BloodBank.checkBloodAvailability (bb : BloodBank) (bloodGroup : CppString) :
    BloodBank × CppString :=
  if !isValidBloodGroup bloodGroup then
    (bb, invalidBloodGroupMessage)
  else
    let count := countDonors bb.donors bloodGroup
    (bb, lit "Blood Group " ++ bloodGroup ++ lit " is available with " ++ showNat count ++
      lit " donors.\n")

/-- The `std::set` `compatibleGroups` that `checkBloodCompatibility` fills
for a recipient group (main.cpp:128-146).  It stays empty when no branch is
taken. -/
def compatibleGroups (bloodGroup : CppString) : List CppString :=
  if bloodGroup = lit "A+" then mkSet [lit "A+", lit "A-", lit "O+", lit "O-"]
  else if bloodGroup = lit "A-" then mkSet [lit "A-", lit "O-"]
  else if bloodGroup = lit "B+" then mkSet [lit "B+", lit "B-", lit "O+", lit "O-"]
  else if bloodGroup = lit "B-" then mkSet [lit "B-", lit "O-"]
  else if bloodGroup = lit "AB+" then
    mkSet [lit "A+", lit "A-", lit "B+", lit "B-", lit "AB+", lit "AB-", lit "O+", lit "O-"]
  else if bloodGroup = lit "AB-" then mkSet [lit "A-", lit "B-", lit "AB-", lit "O-"]
  else if bloodGroup = lit "O+" then mkSet [lit "O+", lit "O-"]
  else if bloodGroup = lit "O-" then mkSet [lit "O-"]
  else []

/-- The line that `checkBloodCompatibility` prints for one compatible group
and its donor count (main.cpp:157). -/
def reportLine (group : CppString) (count : Nat) : CppString :=
  lit "Blood Group " ++ group ++ lit ": " ++ showNat count ++ lit " donors available\n"

/-- What `checkBloodCompatibility` prints before its rows (main.cpp:148-149). -/
def reportHeader (bloodGroup : CppString) : CppString :=
  lit "\nCompatible blood groups for " ++ bloodGroup ++ lit ":\n" ++ separatorLine

/-- Method `BloodBank::checkBloodCompatibility` (main.cpp:123-160). -/
def BloodBank.checkBloodCompatibility (bb : BloodBank) (bloodGroup : CppString) :
    BloodBank × CppString :=
  if !isValidBloodGroup bloodGroup then
    (bb, invalidBloodGroupMessage)
  else
    (bb, reportHeader bloodGroup ++
      (compatibleGroups bloodGroup).flatMap (fun group =>
        let count := countDonors bb.donors group
        reportLine group count) ++
      separatorLine)

/-! Section: Sequences of operations -/

/-- A call of one of the public methods of `BloodBank`, with its arguments. -/
inductive Op where
  | addDonor (name bloodGroup : CppString) (age : Int) (address : CppString)
  | addPatient (name bloodGroup : CppString) (age : Int) (address : CppString)
  | displayDonors
  | displayPatients
  | checkBloodAvailability (bloodGroup : CppString)
  | checkBloodCompatibility (bloodGroup : CppString)
  deriving DecidableEq

/-- The effect of one call on the store, with the bytes it prints. -/
def BloodBank.apply (bb : BloodBank) : Op → BloodBank × CppString
  | Op.addDonor name bloodGroup age address => bb.addDonor name bloodGroup age address
  | Op.addPatient name bloodGroup age address => bb.addPatient name bloodGroup age address
  | Op.displayDonors => bb.displayDonors
  | Op.displayPatients => bb.displayPatients
  | Op.checkBloodAvailability bloodGroup => bb.checkBloodAvailability bloodGroup
  | Op.checkBloodCompatibility bloodGroup => bb.checkBloodCompatibility bloodGroup

/-- The store after a sequence of calls, made one after the other. -/
def BloodBank.run (bb : BloodBank) (ops : List Op) : BloodBank :=
  ops.foldl (fun s op => (s.apply op).1) bb

/-! Section: The specification's compatibility table -/

/-- The acceptable donors of a recipient, as the table of the specification
(section 4.3) lists them, in the order of the table. -/
def specAcceptableDonors (recipient : CppString) : List CppString :=
  if recipient = lit "A+" then [lit "A+", lit "A-", lit "O+", lit "O-"]
  else if recipient = lit "A-" then [lit "A-", lit "O-"]
  else if recipient = lit "B+" then [lit "B+", lit "B-", lit "O+", lit "O-"]
  else if recipient = lit "B-" then [lit "B-", lit "O-"]
  else if recipient = lit "AB+" then bloodGroupValues
  else if recipient = lit "AB-" then [lit "A-", lit "B-", lit "AB-", lit "O-"]
  else if recipient = lit "O+" then [lit "O+", lit "O-"]
  else if recipient = lit "O-" then [lit "O-"]
  else []

/-- What `checkBloodCompatibility` would print for a recipient if its rows
were those of `groups`, in that order, each with the donor count of its
group: the header, one line per group, the closing separator. -/
def reportOf (donors : List Donor) (recipient : CppString) (groups : List CppString) :
    CppString :=
  reportHeader recipient ++
    groups.flatMap (fun group => reportLine group (countDonors donors group)) ++
    separatorLine

/-! Section: The menu loop -/

/-- The values of the variables `choice`, `name`, `bloodGroup`, `age` and
`address` of `main` (main.cpp:166-168) with which a pass of the loop runs its
`switch`: the selection, and the answers to the prompts of the selected case.
A case uses only the variables it reads; the others are not looked at. -/
structure MenuInput where
  choice : Int
  name : CppString
  bloodGroup : CppString
  age : Int
  address : CppString
  deriving DecidableEq

/-- The menu that every pass of the loop prints first (main.cpp:171-179). -/
def menuText : CppString :=
  lit "\n\t\t\t\t\t======= BLOOD BANK MANAGEMENT =======\n" ++
  lit "\n1. Add Donor\n" ++
  lit "2. Add Patient\n" ++
  lit "3. Display Donors\n" ++
  lit "4. Display Patients\n" ++
  lit "5. Check Blood Availability\n" ++
  lit "6. Check Blood Compatibility\n" ++
  lit "7. Exit\n" ++
  lit "Enter your choice: "

/-- The line printed by the `default` branch of the `switch` (main.cpp:241). -/
def invalidChoiceMessage : CppString :=
  lit "Invalid choice! Please try again.\n"

/-- The `switch (choice)` of `main` (main.cpp:183-242): the store after the
selected case and the bytes the case prints, prompts included. -/
def menuCase (bb : BloodBank) (inp : MenuInput) : BloodBank × CppString :=
  if inp.choice = 1 then
    let bloodGroup := toUpperCase inp.bloodGroup
    let r := bb.addDonor inp.name bloodGroup inp.age inp.address
    (r.1, lit "Enter Donor Name: " ++
      lit "Valid Blood Groups: A+, A-, B+, B-, AB+, AB-, O+, O-\n" ++
      lit "Enter Blood Group: " ++ lit "Enter Age: " ++ lit "Enter Address: " ++ r.2)
  else if inp.choice = 2 then
    let bloodGroup := toUpperCase inp.bloodGroup
    let r := bb.addPatient inp.name bloodGroup inp.age inp.address
    (r.1, lit "Enter Patient Name: " ++
      lit "Valid Blood Groups: A+, A-, B+, B-, AB+, AB-, O+, O-\n" ++
      lit "Enter Blood Group: " ++ lit "Enter Age: " ++ lit "Enter Address: " ++ r.2)
  else if inp.choice = 3 then
    bb.displayDonors
  else if inp.choice = 4 then
    bb.displayPatients
  else if inp.choice = 5 then
    let bloodGroup := toUpperCase inp.bloodGroup
    let r := bb.checkBloodAvailability bloodGroup
    (r.1, lit "Enter Blood Group to Check Availability: " ++ r.2)
  else if inp.choice = 6 then
    let bloodGroup := toUpperCase inp.bloodGroup
    let r := bb.checkBloodCompatibility bloodGroup
    (r.1, lit "Enter Blood Group to Check Compatibility: " ++ r.2)
  else if inp.choice = 7 then
    (bb, lit "Exiting...\n")
  else
    (bb, invalidChoiceMessage)

/-- The largest value of the 32-bit `int` of the variables `choice` and `age`. -/
def intMax : Int := 2147483647

/-- The smallest value of the 32-bit `int` of the variables `choice` and `age`. -/
def intMin : Int := -2147483648

/-- The extraction `cin >> x` into an `int` variable (main.cpp:180, 192, 207)
on a stream in good state whose next token is the decimal numeral of the
integer `typed`: the value stored in the variable, and whether the stream
fails.  A numeral that fits is stored; one that does not fit stores the
nearest bound of `int` and sets the fail bit (C++11 `num_get`). -/
def readInt (typed : Int) : Int × Bool :=
  if intMax < typed then (intMax, true)
  else if typed < intMin then (intMin, true)
  else (typed, false)

/-- What the user types for one pass of the loop: the integer typed at the
menu, of any size, and the lines and the integer typed at the prompts of the
selected case.  What a case does not ask for is not typed and not looked at. -/
structure TypedInput where
  choice : Int
  name : CppString
  bloodGroup : CppString
  age : Int
  address : CppString
  deriving DecidableEq

/-- The reads of one pass on a stream in good state (main.cpp:180-181,
186-195, 201-210, 224, 231): the values of the variables after the reads, and
whether the stream has failed.  The source never clears the stream, and on a
failed stream `cin >>`, `cin.ignore()` and `getline` do nothing: when the
selection does not fit an `int` no variable but `choice` is written, and when
the age does not fit the address keeps the value it had. -/
def readPass (vars : MenuInput) (inp : TypedInput) : MenuInput × Bool :=
  let c := readInt inp.choice
  if c.2 then
    (MenuInput.mk c.1 vars.name vars.bloodGroup vars.age vars.address, true)
  else if c.1 = 1 ∨ c.1 = 2 then
    let a := readInt inp.age
    if a.2 then
      (MenuInput.mk c.1 inp.name inp.bloodGroup a.1 vars.address, true)
    else
      (MenuInput.mk c.1 inp.name inp.bloodGroup a.1 inp.address, false)
  else if c.1 = 5 ∨ c.1 = 6 then
    (MenuInput.mk c.1 vars.name inp.bloodGroup vars.age vars.address, false)
  else
    (MenuInput.mk c.1 vars.name vars.bloodGroup vars.age vars.address, false)

/-- The variables after the `switch`: the cases 1, 2, 5 and 6 have assigned
`toUpperCase(bloodGroup)` to `bloodGroup` (main.cpp:190, 205, 225, 232). -/
def afterSwitch (vars : MenuInput) : MenuInput :=
  if vars.choice = 1 ∨ vars.choice = 2 ∨ vars.choice = 5 ∨ vars.choice = 6 then
    MenuInput.mk vars.choice vars.name (toUpperCase vars.bloodGroup) vars.age vars.address
  else vars

/-- The state of `main` between two passes of its loop: the store, the bytes
printed so far, whether `cin` has failed, and the values of the variables. -/
structure LoopState where
  bank : BloodBank
  output : CppString
  failed : Bool
  vars : MenuInput
  deriving DecidableEq

/-- What is known of a run of `main` after some passes: the store, the bytes
printed so far, and the exit code, which is `some 0` once `return 0`
(main.cpp:245) has been reached and `none` as long as it has not. -/
structure MainResult where
  bank : BloodBank
  output : CppString
  exitCode : Option Int
  deriving DecidableEq

/-- The `do ... while (choice != 7)` loop of `main` (main.cpp:170-243),
followed for at most `fuel` passes, on what the user types pass by pass.  A
pass prints the menu, reads, and runs the `switch`; the loop is left, and 0
returned, after a pass in which `choice` is 7, and goes round again after any
other pass.  Once the stream has failed nothing is read any more: every later
pass runs the `switch` on the variables as they are.  When nothing is typed
any more on a stream in good state the run waits at the prompt of the menu. -/
def mainLoop : Nat → LoopState → List TypedInput → MainResult
  | 0, st, _ => MainResult.mk st.bank st.output none
  | fuel + 1, st, inputs =>
    if st.failed then
      let r := menuCase st.bank st.vars
      if st.vars.choice ≠ 7 then
        mainLoop fuel
          (LoopState.mk r.1 (st.output ++ menuText ++ r.2) true (afterSwitch st.vars)) inputs
      else MainResult.mk r.1 (st.output ++ menuText ++ r.2) (some 0)
    else
      match inputs with
      | [] => MainResult.mk st.bank (st.output ++ menuText) none
      | inp :: rest =>
        let rd := readPass st.vars inp
        let r := menuCase st.bank rd.1
        if rd.1.choice ≠ 7 then
          mainLoop fuel
            (LoopState.mk r.1 (st.output ++ menuText ++ r.2) rd.2 (afterSwitch rd.1)) rest
        else MainResult.mk r.1 (st.output ++ menuText ++ r.2) (some 0)

/-- The state in which `main` enters its loop (main.cpp:165-168): a fresh
store, nothing printed, `cin` in good state, empty strings.  The source does
not initialise `choice` and `age`; the first pass writes `choice` before the
`switch` looks at it, and `age` is written by the case that uses it, so the
0 put here is never looked at. -/
def initialState : LoopState :=
  LoopState.mk BloodBank.empty [] false (MenuInput.mk 0 [] [] 0 [])

/-- Function `main` (main.cpp:164-246), followed for at most `fuel` passes
of its loop. -/
def main (fuel : Nat) (inputs : List TypedInput) : MainResult :=
  mainLoop fuel initialState inputs

/-! Section: Notions used to state the properties -/

/-- The line that `displayDonors` prints for one donor (main.cpp:86-87). -/
def donorLine (donor : Donor) : CppString :=
  lit "Name: " ++ donor.name ++ lit ", Blood Group: " ++ donor.bloodGroup ++
    lit ", Age: " ++ showInt donor.age ++ lit ", Address: " ++ donor.address ++ lit "\n"

/-- The line that `displayPatients` prints for one patient (main.cpp:101-102). -/
def patientLine (patient : Patient) : CppString :=
  lit "Name: " ++ patient.name ++ lit ", Blood Group: " ++ patient.bloodGroup ++
    lit ", Age: " ++ showInt patient.age ++ lit ", Address: " ++ patient.address ++ lit "\n"

/-- The donors of the `addDonor` calls of a sequence of calls that pass
validation (group among the eight values, age from 18 to 65), with the fields
of the call, in call order. -/
def acceptedDonors (ops : List Op) : List Donor :=
  ops.filterMap (fun op =>
    match op with
    | Op.addDonor name bloodGroup age address =>
      if bloodGroup ∈ bloodGroupValues ∧ 18 ≤ age ∧ age ≤ 65 then
        some (Donor.mk name bloodGroup age address)
      else none
    | _ => none)

/-- The patients of the `addPatient` calls of a sequence of calls whose group
is among the eight values, with the fields of the call, in call order. -/
def acceptedPatients (ops : List Op) : List Patient :=
  ops.filterMap (fun op =>
    match op with
    | Op.addPatient name bloodGroup age address =>
      if bloodGroup ∈ bloodGroupValues then
        some (Patient.mk name bloodGroup age address)
      else none
    | _ => none)

/-- Two bytes that are equal, or are the lower-case and the upper-case form of
the same letter (in either order). -/
def sameByteUpToCase (a b : Nat) : Bool :=
  decide (a = b ∨ (97 ≤ a ∧ a ≤ 122 ∧ a = b + 32) ∨ (97 ≤ b ∧ b ≤ 122 ∧ b = a + 32))

/-- Two strings that differ only in the case of their letters: same length,
and position by position the same byte up to case. -/
def sameUpToCase : CppString → CppString → Bool
  | [], [] => true
  | a :: as, b :: bs => sameByteUpToCase a b && sameUpToCase as bs
  | _, _ => false

/-! Section: Facts about the string comparison and the set -/

theorem strLt_irrefl (x : CppString) : strLt x x = false := by
  induction x with
  | nil => rfl
  | cons a as ih => simp [strLt, ih]

theorem strLt_equiv_iff (x y : CppString) :
    (strLt x y = false ∧ strLt y x = false) ↔ x = y := by
  induction x generalizing y with
  | nil => cases y <;> simp [strLt]
  | cons a as ih =>
    cases y with
    | nil => simp [strLt]
    | cons b bs =>
      constructor
      · intro h
        simp only [strLt] at h
        by_cases hab : a < b
        · simp [hab] at h
        · by_cases hba : b < a
          · simp [hab, hba] at h
          · simp only [hab, hba, if_false] at h
            have hEq : a = b := by omega
            rw [hEq, (ih bs).1 h]
      · intro h
        rw [← h]
        exact ⟨strLt_irrefl _, strLt_irrefl _⟩

theorem setContains_cons (y : CppString) (ys : List CppString) (x : CppString) :
    setContains (y :: ys) x = true ↔ (x = y ∨ setContains ys x = true) := by
  have h := strLt_equiv_iff x y
  simp only [setContains, List.any_cons, Bool.or_eq_true, Bool.and_eq_true,
    Bool.not_eq_true'] at *
  rw [h]

theorem setContains_iff_mem (s : List CppString) (x : CppString) :
    setContains s x = true ↔ x ∈ s := by
  induction s with
  | nil => simp [setContains]
  | cons y ys ih => rw [setContains_cons, ih, List.mem_cons]

theorem isValidBloodGroup_iff_mem (g : CppString) :
    isValidBloodGroup g = true ↔ g ∈ bloodGroupValues := by
  have hset : mkSet [lit "A+", lit "A-", lit "B+", lit "B-", lit "AB+", lit "AB-",
      lit "O+", lit "O-"] =
      [lit "A+", lit "A-", lit "AB+", lit "AB-", lit "B+", lit "B-", lit "O+", lit "O-"] := by
    decide
  unfold isValidBloodGroup
  simp only [hset, setContains_iff_mem, bloodGroupValues, List.mem_cons, List.mem_singleton,
    List.not_mem_nil, or_false]
  tauto

/-! Section: Validation of blood groups -/

/-- C1: for every string `s`, `isValidBloodGroup (toUpperCase s)` is true
exactly when `toUpperCase s` is one of the eight strings A+, A-, B+, B-, AB+,
AB-, O+, O-, compared byte for byte. -/
theorem isValidBloodGroup_toUpperCase_iff (s : CppString) :
    isValidBloodGroup (toUpperCase s) = true ↔
      (toUpperCase s = lit "A+" ∨ toUpperCase s = lit "A-" ∨ toUpperCase s = lit "B+" ∨
        toUpperCase s = lit "B-" ∨ toUpperCase s = lit "AB+" ∨ toUpperCase s = lit "AB-" ∨
        toUpperCase s = lit "O+" ∨ toUpperCase s = lit "O-") := by
  rw [isValidBloodGroup_iff_mem]
  simp [bloodGroupValues]

/-- C2 (refuted as stated): `isValidBloodGroup` is not case-insensitive.  The
uppercased form of "a+" is the blood group "A+", yet `isValidBloodGroup`
rejects "a+" while it accepts "A+". -/
theorem isValidBloodGroup_not_case_insensitive :
    ¬ (∀ s : CppString, isValidBloodGroup s = true ↔ toUpperCase s ∈ bloodGroupValues) ∧
    toUpperCase (lit "a+") = lit "A+" ∧
    isValidBloodGroup (lit "a+") = false ∧ isValidBloodGroup (lit "A+") = true := by
  refine ⟨fun h => ?_, by decide, by decide, by decide⟩
  have h1 : isValidBloodGroup (lit "a+") = true := (h (lit "a+")).2 (by decide)
  exact absurd h1 (by decide)

/-- C2 (amended): `isValidBloodGroup s` is true exactly when `s` itself, as
given and without any change of case, is one of the eight blood-group values;
on text that has been put through `toUpperCase`, this is the match on the
normalized form. -/
theorem isValidBloodGroup_exact_match (s : CppString) :
    (isValidBloodGroup s = true ↔ s ∈ bloodGroupValues) ∧
    (isValidBloodGroup (toUpperCase s) = true ↔ toUpperCase s ∈ bloodGroupValues) :=
  ⟨isValidBloodGroup_iff_mem s, isValidBloodGroup_iff_mem (toUpperCase s)⟩

/-! Section: Adding records -/

theorem isValidBloodGroup_eq_false_iff (g : CppString) :
    isValidBloodGroup g = false ↔ g ∉ bloodGroupValues := by
  rw [← isValidBloodGroup_iff_mem]
  cases isValidBloodGroup g <;> simp

theorem invalidBloodGroupMessage_head : invalidBloodGroupMessage.head? = some 73 := by
  decide

theorem invalidAgeMessage_head : invalidAgeMessage.head? = some 73 := by
  decide

theorem invalidAgeMessage_ne : invalidAgeMessage ≠ invalidBloodGroupMessage := by
  decide

theorem donor_confirmation_head (name rest : CppString) :
    (lit "Donor '" ++ name ++ rest).head? = some 68 := rfl

theorem patient_confirmation_head (name rest : CppString) :
    (lit "Patient '" ++ name ++ rest).head? = some 80 := rfl

theorem ne_of_head_ne {x y : CppString} {a b : Nat} (hx : x.head? = some a)
    (hy : y.head? = some b) (hab : a ≠ b) : x ≠ y := by
  intro h
  rw [h, hy] at hx
  exact hab (Option.some.inj hx).symm

theorem addDonor_invalid_group (bb : BloodBank) (name g : CppString) (age : Int)
    (address : CppString) (hg : g ∉ bloodGroupValues) :
    bb.addDonor name g age address = (bb, invalidBloodGroupMessage) := by
  have h := (isValidBloodGroup_eq_false_iff g).2 hg
  simp [BloodBank.addDonor, h]

theorem addDonor_invalid_age (bb : BloodBank) (name g : CppString) (age : Int)
    (address : CppString) (hg : g ∈ bloodGroupValues) (ha : age < 18 ∨ age > 65) :
    bb.addDonor name g age address = (bb, invalidAgeMessage) := by
  have h := (isValidBloodGroup_iff_mem g).2 hg
  simp [BloodBank.addDonor, h, ha]

theorem addDonor_success (bb : BloodBank) (name g : CppString) (age : Int)
    (address : CppString) (hg : g ∈ bloodGroupValues) (h18 : 18 ≤ age) (h65 : age ≤ 65) :
    bb.addDonor name g age address =
      (BloodBank.mk (bb.donors ++ [Donor.mk name g age address]) bb.patients,
        lit "Donor '" ++ name ++ lit "' added successfully.\n") := by
  have h := (isValidBloodGroup_iff_mem g).2 hg
  have ha : ¬ (age < 18 ∨ age > 65) := by omega
  simp [BloodBank.addDonor, h, ha]

/-- C3: `addDonor` prints the invalid-blood-group error exactly when the group
is not one of the eight values (whatever the age), prints the invalid-age
error exactly when the group is valid and the age is below 18 or above 65, and
leaves the store as it was in both cases; otherwise it appends exactly the
donor (name, group, age, address) at the end of the donor sequence, leaves the
patients alone and prints a confirmation that contains the name.  With a valid
group, ages 17 and 66 give the age error and ages 18 and 65 are stored. -/
theorem addDonor_outcome (bb : BloodBank) (name g : CppString) (age : Int)
    (address : CppString) :
    ((bb.addDonor name g age address).2 = invalidBloodGroupMessage ↔ g ∉ bloodGroupValues) ∧
    ((bb.addDonor name g age address).2 = invalidAgeMessage ↔
      (g ∈ bloodGroupValues ∧ (age < 18 ∨ age > 65))) ∧
    ((g ∉ bloodGroupValues ∨ age < 18 ∨ age > 65) → (bb.addDonor name g age address).1 = bb) ∧
    ((g ∈ bloodGroupValues ∧ 18 ≤ age ∧ age ≤ 65) →
      (bb.addDonor name g age address).1.donors = bb.donors ++ [Donor.mk name g age address] ∧
      (bb.addDonor name g age address).1.patients = bb.patients ∧
      (bb.addDonor name g age address).2 = lit "Donor '" ++ name ++ lit "' added successfully.\n" ∧
      name <:+: (bb.addDonor name g age address).2) ∧
    (g ∈ bloodGroupValues →
      bb.addDonor name g 17 address = (bb, invalidAgeMessage) ∧
      bb.addDonor name g 66 address = (bb, invalidAgeMessage) ∧
      (bb.addDonor name g 18 address).1.donors = bb.donors ++ [Donor.mk name g 18 address] ∧
      (bb.addDonor name g 65 address).1.donors = bb.donors ++ [Donor.mk name g 65 address]) := by
  have hconf : ∀ rest : CppString, name <:+: lit "Donor '" ++ name ++ rest :=
    fun rest => ⟨lit "Donor '", rest, rfl⟩
  by_cases hg : g ∈ bloodGroupValues
  · by_cases ha : age < 18 ∨ age > 65
    · rw [addDonor_invalid_age bb name g age address hg ha]
      refine ⟨?_, ?_, ?_, ?_, ?_⟩
      · simp [hg, invalidAgeMessage_ne]
      · simp [hg, ha]
      · simp
      · intro h; omega
      · intro _
        rw [addDonor_invalid_age bb name g 17 address hg (by omega),
          addDonor_invalid_age bb name g 66 address hg (by omega),
          addDonor_success bb name g 18 address hg (by omega) (by omega),
          addDonor_success bb name g 65 address hg (by omega) (by omega)]
        exact ⟨rfl, rfl, rfl, rfl⟩
    · have h18 : 18 ≤ age := by omega
      have h65 : age ≤ 65 := by omega
      rw [addDonor_success bb name g age address hg h18 h65]
      refine ⟨?_, ?_, ?_, ?_, ?_⟩
      · simp only [hg, not_true_eq_false, iff_false]
        exact ne_of_head_ne (donor_confirmation_head _ _) invalidBloodGroupMessage_head
          (by decide)
      · have hne := ne_of_head_ne (donor_confirmation_head name (lit "' added successfully.\n"))
          invalidAgeMessage_head (by decide)
        simp only [ha, and_false, iff_false]
        exact hne
      · intro h
        rcases h with h | h
        · exact absurd hg h
        · exact absurd h ha
      · intro _
        exact ⟨rfl, rfl, rfl, hconf _⟩
      · intro _
        rw [addDonor_invalid_age bb name g 17 address hg (by omega),
          addDonor_invalid_age bb name g 66 address hg (by omega),
          addDonor_success bb name g 18 address hg (by omega) (by omega),
          addDonor_success bb name g 65 address hg (by omega) (by omega)]
        exact ⟨rfl, rfl, rfl, rfl⟩
  · rw [addDonor_invalid_group bb name g age address hg]
    refine ⟨?_, ?_, ?_, ?_, ?_⟩
    · simp [hg]
    · simp only [hg, false_and, iff_false]
      exact fun h => invalidAgeMessage_ne h.symm
    · simp
    · intro h; exact absurd h.1 hg
    · intro h; exact absurd h hg

/-- Witness of C3: a donor of group O- and age 18 is stored in the empty
store. -/
theorem addDonor_outcome_witness :
    (lit "O-" ∈ bloodGroupValues ∧ (18 : Int) ≤ 18 ∧ (18 : Int) ≤ 65) ∧
    (BloodBank.empty.addDonor (lit "Asha Rao") (lit "O-") 18 (lit "Pune")).1.donors =
      BloodBank.empty.donors ++ [Donor.mk (lit "Asha Rao") (lit "O-") 18 (lit "Pune")] :=
  ⟨by decide,
    ((addDonor_outcome BloodBank.empty (lit "Asha Rao") (lit "O-") 18 (lit "Pune")).2.2.2.1
      (by decide)).1⟩

theorem addPatient_invalid_group (bb : BloodBank) (name g : CppString) (age : Int)
    (address : CppString) (hg : g ∉ bloodGroupValues) :
    bb.addPatient name g age address = (bb, invalidBloodGroupMessage) := by
  have h := (isValidBloodGroup_eq_false_iff g).2 hg
  simp [BloodBank.addPatient, h]

theorem addPatient_success (bb : BloodBank) (name g : CppString) (age : Int)
    (address : CppString) (hg : g ∈ bloodGroupValues) :
    bb.addPatient name g age address =
      (BloodBank.mk bb.donors (bb.patients ++ [Patient.mk name g age address]),
        lit "Patient '" ++ name ++ lit "' added successfully.\n") := by
  have h := (isValidBloodGroup_iff_mem g).2 hg
  simp [BloodBank.addPatient, h]

/-- C4: `addPatient` prints the invalid-blood-group error, and leaves the store
as it was, exactly when the group is not one of the eight values; otherwise,
for every integer age (no age is refused), it appends exactly the patient
(name, group, age, address) at the end of the patient sequence and leaves the
donor sequence unchanged. -/
theorem addPatient_outcome (bb : BloodBank) (name g : CppString) (age : Int)
    (address : CppString) :
    ((bb.addPatient name g age address).2 = invalidBloodGroupMessage ↔ g ∉ bloodGroupValues) ∧
    (g ∉ bloodGroupValues → (bb.addPatient name g age address).1 = bb) ∧
    (g ∈ bloodGroupValues →
      (bb.addPatient name g age address).1.patients =
        bb.patients ++ [Patient.mk name g age address] ∧
      (bb.addPatient name g age address).1.donors = bb.donors ∧
      (bb.addPatient name g age address).2 =
        lit "Patient '" ++ name ++ lit "' added successfully.\n") := by
  by_cases hg : g ∈ bloodGroupValues
  · rw [addPatient_success bb name g age address hg]
    refine ⟨?_, fun h => absurd hg h, fun _ => ⟨rfl, rfl, rfl⟩⟩
    simp only [hg, not_true_eq_false, iff_false]
    exact ne_of_head_ne (patient_confirmation_head _ _) invalidBloodGroupMessage_head
      (by decide)
  · rw [addPatient_invalid_group bb name g age address hg]
    exact ⟨by simp [hg], fun _ => rfl, fun h => absurd h hg⟩

/-- Witness of C4: a patient with a negative age and a valid group is stored,
and a patient of age 30 with the group "X+" is refused. -/
theorem addPatient_outcome_witness :
    (lit "AB-" ∈ bloodGroupValues ∧
      (BloodBank.empty.addPatient (lit "Ravi") (lit "AB-") (-3) (lit "Agra")).1.patients =
        BloodBank.empty.patients ++ [Patient.mk (lit "Ravi") (lit "AB-") (-3) (lit "Agra")]) ∧
    (lit "X+" ∉ bloodGroupValues ∧
      (BloodBank.empty.addPatient (lit "Ravi") (lit "X+") 30 (lit "Agra")).1 = BloodBank.empty) :=
  ⟨⟨by decide,
      ((addPatient_outcome BloodBank.empty (lit "Ravi") (lit "AB-") (-3) (lit "Agra")).2.2
        (by decide)).1⟩,
    ⟨by decide,
      (addPatient_outcome BloodBank.empty (lit "Ravi") (lit "X+") 30 (lit "Agra")).2.1
        (by decide)⟩⟩

/-! Section: Availability -/

theorem foldl_count_eq (donors : List Donor) (group : CppString) (n : Nat) :
    donors.foldl (fun count donor => if donor.bloodGroup = group then count + 1 else count) n =
      n + (donors.filter (fun d => decide (d.bloodGroup = group))).length := by
  induction donors generalizing n with
  | nil => simp
  | cons d ds ih =>
    rw [List.foldl_cons, ih]
    by_cases h : d.bloodGroup = group
    · simp [h]; omega
    · simp [h]

theorem countDonors_eq_length_filter (donors : List Donor) (group : CppString) :
    countDonors donors group =
      (donors.filter (fun d => decide (d.bloodGroup = group))).length := by
  unfold countDonors
  rw [foldl_count_eq]
  omega

/-- C5: `checkBloodAvailability` prints the invalid-blood-group error exactly
when the group is not one of the eight values, and otherwise reports the number
of donors of the store whose `bloodGroup` equals the group; the store is left
as it is, and the patients have no influence on what is reported.  After
donors of groups O-, O-, A+ are added to the empty store, the number reported
for O- is 2. -/
theorem checkBloodAvailability_outcome (bb : BloodBank) (g : CppString) :
    ((bb.checkBloodAvailability g).2 = invalidBloodGroupMessage ↔ g ∉ bloodGroupValues) ∧
    (bb.checkBloodAvailability g).1 = bb ∧
    (g ∈ bloodGroupValues →
      (bb.checkBloodAvailability g).2 =
        lit "Blood Group " ++ g ++ lit " is available with " ++
          showNat (bb.donors.filter (fun d => decide (d.bloodGroup = g))).length ++
          lit " donors.\n") ∧
    (∀ patients : List Patient,
      ((BloodBank.mk bb.donors patients).checkBloodAvailability g).2 =
        (bb.checkBloodAvailability g).2) ∧
    ((((BloodBank.empty.addDonor (lit "P") (lit "O-") 30 (lit "X")).1.addDonor
        (lit "Q") (lit "O-") 40 (lit "Y")).1.addDonor
        (lit "R") (lit "A+") 50 (lit "Z")).1.checkBloodAvailability (lit "O-")).2 =
      lit "Blood Group O- is available with 2 donors.\n" := by
  refine ⟨?_, ?_, ?_, ?_, by decide⟩
  · by_cases hg : g ∈ bloodGroupValues
    · have h := (isValidBloodGroup_iff_mem g).2 hg
      simp only [BloodBank.checkBloodAvailability, h, Bool.not_true, Bool.false_eq_true,
        if_false, hg, not_true_eq_false, iff_false]
      exact @ne_of_head_ne _ _ 66 73 rfl invalidBloodGroupMessage_head (by decide)
    · have h := (isValidBloodGroup_eq_false_iff g).2 hg
      simp [BloodBank.checkBloodAvailability, h, hg]
  · unfold BloodBank.checkBloodAvailability
    split <;> rfl
  · intro hg
    have h := (isValidBloodGroup_iff_mem g).2 hg
    simp [BloodBank.checkBloodAvailability, h, countDonors_eq_length_filter]
  · intro patients
    unfold BloodBank.checkBloodAvailability
    split <;> rfl

/-- Witness of C5: in the store holding one donor of group B+, the count
reported for the valid group B+ is the number of donors of that group. -/
theorem checkBloodAvailability_outcome_witness :
    lit "B+" ∈ bloodGroupValues ∧
    ((BloodBank.mk [Donor.mk (lit "P") (lit "B+") 30 (lit "X")] []).checkBloodAvailability
        (lit "B+")).2 =
      lit "Blood Group " ++ lit "B+" ++ lit " is available with " ++
        showNat ([Donor.mk (lit "P") (lit "B+") 30 (lit "X")].filter
          (fun d => decide (d.bloodGroup = lit "B+"))).length ++ lit " donors.\n" :=
  ⟨by decide,
    (checkBloodAvailability_outcome (BloodBank.mk [Donor.mk (lit "P") (lit "B+") 30 (lit "X")] [])
      (lit "B+")).2.2.1 (by decide)⟩

/-! Section: Compatibility -/

theorem compatibleGroups_table :
    ∀ r ∈ bloodGroupValues,
      (∀ d ∈ compatibleGroups r, d ∈ specAcceptableDonors r) ∧
      (∀ d ∈ specAcceptableDonors r, d ∈ compatibleGroups r) ∧
      (compatibleGroups r).Nodup := by
  decide

theorem mem_compatibleGroups_iff (r d : CppString) (hr : r ∈ bloodGroupValues) :
    d ∈ compatibleGroups r ↔ d ∈ specAcceptableDonors r :=
  ⟨(compatibleGroups_table r hr).1 d, (compatibleGroups_table r hr).2.1 d⟩

theorem valid_AB_pos : lit "AB+" ∈ bloodGroupValues := by decide

theorem valid_O_neg : lit "O-" ∈ bloodGroupValues := by decide

theorem compatibleGroups_AB_pos :
    compatibleGroups (lit "AB+") =
      [lit "A+", lit "A-", lit "AB+", lit "AB-", lit "B+", lit "B-", lit "O+", lit "O-"] := by
  decide

theorem compatibleGroups_AB_neg :
    compatibleGroups (lit "AB-") = [lit "A-", lit "AB-", lit "B-", lit "O-"] := by
  decide

theorem compatibleGroups_O_neg : compatibleGroups (lit "O-") = [lit "O-"] := by
  decide

theorem checkBloodCompatibility_invalid (bb : BloodBank) (r : CppString)
    (hr : r ∉ bloodGroupValues) :
    bb.checkBloodCompatibility r = (bb, invalidBloodGroupMessage) := by
  have h := (isValidBloodGroup_eq_false_iff r).2 hr
  simp [BloodBank.checkBloodCompatibility, h]

theorem checkBloodCompatibility_valid (bb : BloodBank) (r : CppString)
    (hr : r ∈ bloodGroupValues) :
    bb.checkBloodCompatibility r = (bb, reportOf bb.donors r (compatibleGroups r)) := by
  have h := (isValidBloodGroup_iff_mem r).2 hr
  simp [BloodBank.checkBloodCompatibility, h, reportOf]

theorem checkBloodCompatibility_output (bb : BloodBank) (r : CppString)
    (hr : r ∈ bloodGroupValues) :
    (bb.checkBloodCompatibility r).2 = reportOf bb.donors r (compatibleGroups r) := by
  rw [checkBloodCompatibility_valid bb r hr]

theorem reportOf_ne_invalid (donors : List Donor) (r : CppString) (groups : List CppString) :
    reportOf donors r groups ≠ invalidBloodGroupMessage :=
  @ne_of_head_ne _ _ 10 73 rfl invalidBloodGroupMessage_head (by decide)

theorem reportOf_eq_rows (donors : List Donor) (r : CppString) (groups : List CppString) :
    reportOf donors r groups =
      reportHeader r ++
        (groups.map (fun g =>
          (g, (donors.filter (fun d => decide (d.bloodGroup = g))).length))).flatMap
          (fun row => reportLine row.1 row.2) ++
        separatorLine := by
  simp [reportOf, List.flatMap_map, countDonors_eq_length_filter]

theorem reportOf_bytes (donors : List Donor) (r : CppString) (groups : List CppString) :
    reportOf donors r groups =
      lit "\nCompatible blood groups for " ++ r ++ lit ":\n" ++
        (List.replicate 60 45 ++ lit "\n") ++
        (groups.map (fun g =>
          (g, (donors.filter (fun d => decide (d.bloodGroup = g))).length))).flatMap
          (fun row =>
            lit "Blood Group " ++ row.1 ++ lit ": " ++ showNat row.2 ++
              lit " donors available\n") ++
        (List.replicate 60 45 ++ lit "\n") := by
  rw [reportOf_eq_rows]
  rfl

/-- C6: for each of the eight recipient groups, a donor group is in the set
that `checkBloodCompatibility` iterates over exactly when the table of the
specification lists it for that recipient (A+: A+, A-, O+, O-; A-: A-, O-;
B+: B+, B-, O+, O-; B-: B-, O-; AB+: all eight; AB-: A-, B-, AB-, O-;
O+: O+, O-; O-: O-). -/
theorem compatibleGroups_matches_table (r d : CppString) (hr : r ∈ bloodGroupValues) :
    (d ∈ compatibleGroups r ↔ d ∈ specAcceptableDonors r) ∧
    (setContains (compatibleGroups r) d = true ↔ d ∈ specAcceptableDonors r) :=
  ⟨mem_compatibleGroups_iff r d hr,
    (setContains_iff_mem _ d).trans (mem_compatibleGroups_iff r d hr)⟩

/-- Witness of C6: for the recipient AB-, the donor B- is compatible. -/
theorem compatibleGroups_matches_table_witness :
    lit "AB-" ∈ bloodGroupValues ∧
    (lit "B-" ∈ compatibleGroups (lit "AB-") ↔ lit "B-" ∈ specAcceptableDonors (lit "AB-")) :=
  ⟨by decide, (compatibleGroups_matches_table (lit "AB-") (lit "B-") (by decide)).1⟩

/-- C7: `checkBloodCompatibility` prints the invalid-blood-group error exactly
when the recipient is not one of the eight values, and never changes the
store; for a valid recipient what it prints is, byte for byte, the header
line, the separator, one line "Blood Group g: n donors available" per row
(g, n) and the closing separator, where the rows name every group of the
recipient's table entry once (none missing, none repeated, whatever its count)
and the number n of a row is the number of donors whose `bloodGroup` equals
the group of the row.  For AB+ there are 8 rows, one for each of the eight
groups; for O- there is the single row of O-. -/
theorem checkBloodCompatibility_outcome (bb : BloodBank) (r : CppString) :
    ((bb.checkBloodCompatibility r).2 = invalidBloodGroupMessage ↔ r ∉ bloodGroupValues) ∧
    (bb.checkBloodCompatibility r).1 = bb ∧
    (r ∈ bloodGroupValues →
      ∃ rows : List (CppString × Nat),
        (bb.checkBloodCompatibility r).2 =
          lit "\nCompatible blood groups for " ++ r ++ lit ":\n" ++
            (List.replicate 60 45 ++ lit "\n") ++
            rows.flatMap (fun row =>
              lit "Blood Group " ++ row.1 ++ lit ": " ++ showNat row.2 ++
                lit " donors available\n") ++
            (List.replicate 60 45 ++ lit "\n") ∧
        (rows.map Prod.fst).Nodup ∧
        (∀ g, g ∈ rows.map Prod.fst ↔ g ∈ specAcceptableDonors r) ∧
        ∀ row ∈ rows,
          row.2 = (bb.donors.filter (fun d => decide (d.bloodGroup = row.1))).length) ∧
    (∃ rows : List (CppString × Nat),
        (bb.checkBloodCompatibility (lit "AB+")).2 =
          lit "\nCompatible blood groups for " ++ lit "AB+" ++ lit ":\n" ++
            (List.replicate 60 45 ++ lit "\n") ++
            rows.flatMap (fun row =>
              lit "Blood Group " ++ row.1 ++ lit ": " ++ showNat row.2 ++
                lit " donors available\n") ++
            (List.replicate 60 45 ++ lit "\n") ∧
        rows.length = 8 ∧
        ∀ g ∈ bloodGroupValues,
          (g, (bb.donors.filter (fun d => decide (d.bloodGroup = g))).length) ∈ rows) ∧
    (bb.checkBloodCompatibility (lit "O-")).2 =
      lit "\nCompatible blood groups for " ++ lit "O-" ++ lit ":\n" ++
        (List.replicate 60 45 ++ lit "\n") ++
        (lit "Blood Group " ++ lit "O-" ++ lit ": " ++
          showNat (bb.donors.filter (fun d => decide (d.bloodGroup = lit "O-"))).length ++
          lit " donors available\n") ++
        (List.replicate 60 45 ++ lit "\n") := by
  refine ⟨?_, ?_, ?_, ?_, ?_⟩
  · by_cases hr : r ∈ bloodGroupValues
    · rw [checkBloodCompatibility_output bb r hr]
      simp only [hr, not_true_eq_false, iff_false]
      exact reportOf_ne_invalid _ _ _
    · rw [checkBloodCompatibility_invalid bb r hr]
      simp [hr]
  · unfold BloodBank.checkBloodCompatibility
    split <;> rfl
  · intro hr
    rw [checkBloodCompatibility_output bb r hr]
    refine ⟨(compatibleGroups r).map (fun g =>
      (g, (bb.donors.filter (fun d => decide (d.bloodGroup = g))).length)), ?_, ?_, ?_, ?_⟩
    · exact reportOf_bytes bb.donors r (compatibleGroups r)
    · rw [List.map_map]
      have hid : (Prod.fst ∘ fun g : CppString =>
          (g, (bb.donors.filter (fun d => decide (d.bloodGroup = g))).length)) = id := rfl
      rw [hid, List.map_id]
      exact (compatibleGroups_table r hr).2.2
    · intro g
      rw [List.map_map]
      have hid : (Prod.fst ∘ fun g : CppString =>
          (g, (bb.donors.filter (fun d => decide (d.bloodGroup = g))).length)) = id := rfl
      rw [hid, List.map_id]
      exact mem_compatibleGroups_iff r g hr
    · intro row hrow
      rcases List.mem_map.1 hrow with ⟨g, _, hg⟩
      rw [← hg]
  · rw [checkBloodCompatibility_output bb (lit "AB+") valid_AB_pos]
    refine ⟨(compatibleGroups (lit "AB+")).map (fun g =>
      (g, (bb.donors.filter (fun d => decide (d.bloodGroup = g))).length)), ?_, ?_, ?_⟩
    · exact reportOf_bytes bb.donors (lit "AB+") (compatibleGroups (lit "AB+"))
    · rw [List.length_map, compatibleGroups_AB_pos]
      rfl
    · intro g hg
      refine List.mem_map.2 ⟨g, ?_, rfl⟩
      exact (mem_compatibleGroups_iff (lit "AB+") g valid_AB_pos).2 hg
  · rw [checkBloodCompatibility_output bb (lit "O-") valid_O_neg, reportOf_bytes,
      compatibleGroups_O_neg]
    simp only [List.map_cons, List.map_nil, List.flatMap_cons, List.flatMap_nil,
      List.append_nil]

/-- Witness of C7: the report for the valid recipient B- in a store with one
B- donor and one A+ donor. -/
theorem checkBloodCompatibility_outcome_witness :
    lit "B-" ∈ bloodGroupValues ∧
    ∃ rows : List (CppString × Nat),
      ((BloodBank.mk [Donor.mk (lit "P") (lit "B-") 30 (lit "X"),
          Donor.mk (lit "Q") (lit "A+") 41 (lit "Y")] []).checkBloodCompatibility (lit "B-")).2 =
        lit "\nCompatible blood groups for " ++ lit "B-" ++ lit ":\n" ++
          (List.replicate 60 45 ++ lit "\n") ++
          rows.flatMap (fun row =>
            lit "Blood Group " ++ row.1 ++ lit ": " ++ showNat row.2 ++
              lit " donors available\n") ++
          (List.replicate 60 45 ++ lit "\n") ∧
      (rows.map Prod.fst).Nodup ∧
      (∀ g, g ∈ rows.map Prod.fst ↔ g ∈ specAcceptableDonors (lit "B-")) ∧
      ∀ row ∈ rows,
        row.2 = ([Donor.mk (lit "P") (lit "B-") 30 (lit "X"),
          Donor.mk (lit "Q") (lit "A+") 41 (lit "Y")].filter
            (fun d => decide (d.bloodGroup = row.1))).length :=
  ⟨by decide,
    (checkBloodCompatibility_outcome (BloodBank.mk [Donor.mk (lit "P") (lit "B-") 30 (lit "X"),
      Donor.mk (lit "Q") (lit "A+") 41 (lit "Y")] []) (lit "B-")).2.2.1 (by decide)⟩

/-! Section: Order of the rows -/

theorem compatibleGroups_order :
    ∀ r ∈ bloodGroupValues,
      compatibleGroups r =
        if r = lit "AB+" then
          [lit "A+", lit "A-", lit "AB+", lit "AB-", lit "B+", lit "B-", lit "O+", lit "O-"]
        else if r = lit "AB-" then [lit "A-", lit "AB-", lit "B-", lit "O-"]
        else specAcceptableDonors r := by
  decide

/-- C8 (refuted as stated): the rows do not follow the order of the table.
For the recipient AB- the set is visited as A-, AB-, B-, O- while the table
lists A-, B-, AB-, O-, and for AB+ it is visited as A+, A-, AB+, AB-, B+, B-,
O+, O- and not in the enumeration order of the blood groups; already on the
empty store the report for AB- is not the one with the rows in table order. -/
theorem compatibility_rows_not_in_table_order :
    compatibleGroups (lit "AB-") = [lit "A-", lit "AB-", lit "B-", lit "O-"] ∧
    specAcceptableDonors (lit "AB-") = [lit "A-", lit "B-", lit "AB-", lit "O-"] ∧
    (BloodBank.empty.checkBloodCompatibility (lit "AB-")).2 =
      reportOf [] (lit "AB-") [lit "A-", lit "AB-", lit "B-", lit "O-"] ∧
    (BloodBank.empty.checkBloodCompatibility (lit "AB-")).2 ≠
      reportOf [] (lit "AB-") (specAcceptableDonors (lit "AB-")) ∧
    compatibleGroups (lit "AB+") ≠ bloodGroupValues := by
  have hout : (BloodBank.empty.checkBloodCompatibility (lit "AB-")).2 =
      reportOf [] (lit "AB-") [lit "A-", lit "AB-", lit "B-", lit "O-"] := by
    rw [checkBloodCompatibility_output BloodBank.empty (lit "AB-") (by decide),
      compatibleGroups_AB_neg]
    rfl
  have hspec : specAcceptableDonors (lit "AB-") = [lit "A-", lit "B-", lit "AB-", lit "O-"] := by
    decide
  refine ⟨compatibleGroups_AB_neg, hspec, hout, ?_, by decide⟩
  rw [hout, hspec]
  decide

/-- C8 (amended): for every valid recipient the rows of the report are the
acceptable donors of the table in ascending byte order of the group string:
A+, A-, AB+, AB-, B+, B-, O+, O- for AB+, and A-, AB-, B-, O- for AB-; for
the other six recipients this is the order in which the table lists them. -/
theorem checkBloodCompatibility_row_order (bb : BloodBank) (r : CppString)
    (hr : r ∈ bloodGroupValues) :
    (bb.checkBloodCompatibility r).2 =
      reportOf bb.donors r
        (if r = lit "AB+" then
          [lit "A+", lit "A-", lit "AB+", lit "AB-", lit "B+", lit "B-", lit "O+", lit "O-"]
        else if r = lit "AB-" then [lit "A-", lit "AB-", lit "B-", lit "O-"]
        else specAcceptableDonors r) := by
  rw [checkBloodCompatibility_output bb r hr, compatibleGroups_order r hr]

/-- Witness of C8 (amended): the report for the recipient A+ in a store with
one O+ donor. -/
theorem checkBloodCompatibility_row_order_witness :
    lit "A+" ∈ bloodGroupValues ∧
    ((BloodBank.mk [Donor.mk (lit "P") (lit "O+") 30 (lit "X")] []).checkBloodCompatibility
        (lit "A+")).2 =
      reportOf [Donor.mk (lit "P") (lit "O+") 30 (lit "X")] (lit "A+")
        (if lit "A+" = lit "AB+" then
          [lit "A+", lit "A-", lit "AB+", lit "AB-", lit "B+", lit "B-", lit "O+", lit "O-"]
        else if lit "A+" = lit "AB-" then [lit "A-", lit "AB-", lit "B-", lit "O-"]
        else specAcceptableDonors (lit "A+")) :=
  ⟨by decide,
    checkBloodCompatibility_row_order
      (BloodBank.mk [Donor.mk (lit "P") (lit "O+") 30 (lit "X")] []) (lit "A+") (by decide)⟩

/-- C9: in the table used by `checkBloodCompatibility`, O- is a universal
donor (it is in the compatible set of each of the eight recipients) and AB+ is
a universal recipient (each of the eight groups is in the compatible set of
AB+). -/
theorem universal_donor_and_recipient (g : CppString) (hg : g ∈ bloodGroupValues) :
    lit "O-" ∈ compatibleGroups g ∧ g ∈ compatibleGroups (lit "AB+") := by
  constructor
  · refine (mem_compatibleGroups_iff g (lit "O-") hg).2 ?_
    revert g
    decide
  · rw [compatibleGroups_AB_pos]
    revert g
    decide

/-- Witness of C9: O- may be given to B+, and B+ may be given to AB+. -/
theorem universal_donor_and_recipient_witness :
    lit "B+" ∈ bloodGroupValues ∧
    lit "O-" ∈ compatibleGroups (lit "B+") ∧ lit "B+" ∈ compatibleGroups (lit "AB+") :=
  ⟨by decide, universal_donor_and_recipient (lit "B+") (by decide)⟩

/-! Section: The invariant of the store -/

theorem apply_preserves_invariant (bb : BloodBank) (op : Op)
    (hd : ∀ d ∈ bb.donors, d.bloodGroup ∈ bloodGroupValues ∧ 18 ≤ d.age ∧ d.age ≤ 65)
    (hp : ∀ p ∈ bb.patients, p.bloodGroup ∈ bloodGroupValues) :
    (∀ d ∈ (bb.apply op).1.donors, d.bloodGroup ∈ bloodGroupValues ∧ 18 ≤ d.age ∧ d.age ≤ 65) ∧
    (∀ p ∈ (bb.apply op).1.patients, p.bloodGroup ∈ bloodGroupValues) := by
  cases op with
  | addDonor name g age address =>
    simp only [BloodBank.apply]
    by_cases hg : g ∈ bloodGroupValues
    · by_cases ha : age < 18 ∨ age > 65
      · rw [addDonor_invalid_age bb name g age address hg ha]
        exact ⟨hd, hp⟩
      · rw [addDonor_success bb name g age address hg (by omega) (by omega)]
        refine ⟨?_, hp⟩
        intro d hmem
        rcases List.mem_append.1 hmem with h | h
        · exact hd d h
        · rw [List.mem_singleton.1 h]
          exact ⟨hg, show 18 ≤ age by omega, show age ≤ 65 by omega⟩
    · rw [addDonor_invalid_group bb name g age address hg]
      exact ⟨hd, hp⟩
  | addPatient name g age address =>
    simp only [BloodBank.apply]
    by_cases hg : g ∈ bloodGroupValues
    · rw [addPatient_success bb name g age address hg]
      refine ⟨hd, ?_⟩
      intro p hmem
      rcases List.mem_append.1 hmem with h | h
      · exact hp p h
      · rw [List.mem_singleton.1 h]
        exact hg
    · rw [addPatient_invalid_group bb name g age address hg]
      exact ⟨hd, hp⟩
  | displayDonors =>
    have h : (bb.apply Op.displayDonors).1 = bb := by
      simp only [BloodBank.apply, BloodBank.displayDonors]
      split <;> rfl
    rw [h]
    exact ⟨hd, hp⟩
  | displayPatients =>
    have h : (bb.apply Op.displayPatients).1 = bb := by
      simp only [BloodBank.apply, BloodBank.displayPatients]
      split <;> rfl
    rw [h]
    exact ⟨hd, hp⟩
  | checkBloodAvailability g =>
    have h : (bb.apply (Op.checkBloodAvailability g)).1 = bb := by
      simp only [BloodBank.apply, BloodBank.checkBloodAvailability]
      split <;> rfl
    rw [h]
    exact ⟨hd, hp⟩
  | checkBloodCompatibility g =>
    have h : (bb.apply (Op.checkBloodCompatibility g)).1 = bb := by
      simp only [BloodBank.apply, BloodBank.checkBloodCompatibility]
      split <;> rfl
    rw [h]
    exact ⟨hd, hp⟩

theorem run_preserves_invariant (ops : List Op) (bb : BloodBank)
    (hd : ∀ d ∈ bb.donors, d.bloodGroup ∈ bloodGroupValues ∧ 18 ≤ d.age ∧ d.age ≤ 65)
    (hp : ∀ p ∈ bb.patients, p.bloodGroup ∈ bloodGroupValues) :
    (∀ d ∈ (bb.run ops).donors, d.bloodGroup ∈ bloodGroupValues ∧ 18 ≤ d.age ∧ d.age ≤ 65) ∧
    (∀ p ∈ (bb.run ops).patients, p.bloodGroup ∈ bloodGroupValues) := by
  induction ops generalizing bb with
  | nil => exact ⟨hd, hp⟩
  | cons op ops ih =>
    have hstep := apply_preserves_invariant bb op hd hp
    have hrun : bb.run (op :: ops) = (bb.apply op).1.run ops := rfl
    rw [hrun]
    exact ih (bb.apply op).1 hstep.1 hstep.2

/-- C10: in every store reached from the empty store by a sequence of
`addDonor`, `addPatient`, display and query calls with arbitrary arguments,
every stored donor has one of the eight blood groups and an age between 18 and
65 inclusive, and every stored patient has one of the eight blood groups. -/
theorem store_invariant (ops : List Op) :
    (∀ d ∈ (BloodBank.empty.run ops).donors,
      d.bloodGroup ∈ bloodGroupValues ∧ 18 ≤ d.age ∧ d.age ≤ 65) ∧
    (∀ p ∈ (BloodBank.empty.run ops).patients, p.bloodGroup ∈ bloodGroupValues) := by
  apply run_preserves_invariant
  · intro d hmem
    exact absurd hmem (List.not_mem_nil d)
  · intro p hmem
    exact absurd hmem (List.not_mem_nil p)

/-- Witness of C10: after a refused donor (age 17), a stored donor (age 18), a
query and a stored patient, the stored donor satisfies the invariant. -/
theorem store_invariant_witness :
    Donor.mk (lit "Q") (lit "O-") 18 (lit "Y") ∈
      (BloodBank.empty.run [Op.addDonor (lit "P") (lit "A+") 17 (lit "X"),
        Op.addDonor (lit "Q") (lit "O-") 18 (lit "Y"),
        Op.checkBloodAvailability (lit "O-"),
        Op.addPatient (lit "R") (lit "B-") 5 (lit "Z")]).donors ∧
    (lit "O-" ∈ bloodGroupValues ∧ (18 : Int) ≤ 18 ∧ (18 : Int) ≤ 65) :=
  ⟨by decide,
    (store_invariant [Op.addDonor (lit "P") (lit "A+") 17 (lit "X"),
        Op.addDonor (lit "Q") (lit "O-") 18 (lit "Y"),
        Op.checkBloodAvailability (lit "O-"),
        Op.addPatient (lit "R") (lit "B-") 5 (lit "Z")]).1
      (Donor.mk (lit "Q") (lit "O-") 18 (lit "Y")) (by decide)⟩

/-! Section: The store only grows -/

theorem displayDonors_fst (bb : BloodBank) : bb.displayDonors.1 = bb := by
  unfold BloodBank.displayDonors
  split <;> rfl

theorem displayPatients_fst (bb : BloodBank) : bb.displayPatients.1 = bb := by
  unfold BloodBank.displayPatients
  split <;> rfl

theorem checkBloodAvailability_fst (bb : BloodBank) (g : CppString) :
    (bb.checkBloodAvailability g).1 = bb := by
  unfold BloodBank.checkBloodAvailability
  split <;> rfl

theorem checkBloodCompatibility_fst (bb : BloodBank) (g : CppString) :
    (bb.checkBloodCompatibility g).1 = bb := by
  unfold BloodBank.checkBloodCompatibility
  split <;> rfl

theorem addDonor_fst (bb : BloodBank) (name g : CppString) (age : Int) (address : CppString) :
    (bb.addDonor name g age address).1 =
      if g ∈ bloodGroupValues ∧ 18 ≤ age ∧ age ≤ 65 then
        BloodBank.mk (bb.donors ++ [Donor.mk name g age address]) bb.patients
      else bb := by
  by_cases hg : g ∈ bloodGroupValues
  · by_cases ha : age < 18 ∨ age > 65
    · rw [addDonor_invalid_age bb name g age address hg ha, if_neg (by omega)]
    · rw [addDonor_success bb name g age address hg (by omega) (by omega),
        if_pos ⟨hg, by omega, by omega⟩]
  · rw [addDonor_invalid_group bb name g age address hg, if_neg (fun h => hg h.1)]

theorem addPatient_fst (bb : BloodBank) (name g : CppString) (age : Int)
    (address : CppString) :
    (bb.addPatient name g age address).1 =
      if g ∈ bloodGroupValues then
        BloodBank.mk bb.donors (bb.patients ++ [Patient.mk name g age address])
      else bb := by
  by_cases hg : g ∈ bloodGroupValues
  · rw [addPatient_success bb name g age address hg, if_pos hg]
  · rw [addPatient_invalid_group bb name g age address hg, if_neg hg]

/-- C11: for every call of a method of `BloodBank` and every argument, the
donor sequence before the call is an initial segment of the donor sequence
after it, and likewise for the patients, so that no stored record is edited,
moved or removed; the two display methods and the two queries leave the whole
store exactly as it was. -/
theorem store_only_grows (bb : BloodBank) (op : Op) :
    (bb.donors <+: (bb.apply op).1.donors ∧ bb.patients <+: (bb.apply op).1.patients) ∧
    bb.displayDonors.1 = bb ∧ bb.displayPatients.1 = bb ∧
    (∀ g : CppString, (bb.checkBloodAvailability g).1 = bb) ∧
    (∀ g : CppString, (bb.checkBloodCompatibility g).1 = bb) := by
  refine ⟨?_, displayDonors_fst bb, displayPatients_fst bb, checkBloodAvailability_fst bb,
    checkBloodCompatibility_fst bb⟩
  cases op with
  | addDonor name g age address =>
    simp only [BloodBank.apply, addDonor_fst]
    split
    · exact ⟨⟨_, rfl⟩, ⟨[], List.append_nil _⟩⟩
    · exact ⟨⟨[], List.append_nil _⟩, ⟨[], List.append_nil _⟩⟩
  | addPatient name g age address =>
    simp only [BloodBank.apply, addPatient_fst]
    split
    · exact ⟨⟨[], List.append_nil _⟩, ⟨_, rfl⟩⟩
    · exact ⟨⟨[], List.append_nil _⟩, ⟨[], List.append_nil _⟩⟩
  | displayDonors =>
    simp only [BloodBank.apply, displayDonors_fst]
    exact ⟨⟨[], List.append_nil _⟩, ⟨[], List.append_nil _⟩⟩
  | displayPatients =>
    simp only [BloodBank.apply, displayPatients_fst]
    exact ⟨⟨[], List.append_nil _⟩, ⟨[], List.append_nil _⟩⟩
  | checkBloodAvailability g =>
    simp only [BloodBank.apply, checkBloodAvailability_fst]
    exact ⟨⟨[], List.append_nil _⟩, ⟨[], List.append_nil _⟩⟩
  | checkBloodCompatibility g =>
    simp only [BloodBank.apply, checkBloodCompatibility_fst]
    exact ⟨⟨[], List.append_nil _⟩, ⟨[], List.append_nil _⟩⟩

/-! Section: Listings -/

theorem acceptedDonors_cons (op : Op) (ops : List Op) :
    acceptedDonors (op :: ops) = acceptedDonors [op] ++ acceptedDonors ops := by
  have h : op :: ops = [op] ++ ops := rfl
  rw [h]
  unfold acceptedDonors
  rw [List.filterMap_append]

theorem acceptedPatients_cons (op : Op) (ops : List Op) :
    acceptedPatients (op :: ops) = acceptedPatients [op] ++ acceptedPatients ops := by
  have h : op :: ops = [op] ++ ops := rfl
  rw [h]
  unfold acceptedPatients
  rw [List.filterMap_append]

theorem apply_donors (bb : BloodBank) (op : Op) :
    (bb.apply op).1.donors = bb.donors ++ acceptedDonors [op] := by
  cases op with
  | addDonor name g age address =>
    simp only [BloodBank.apply, addDonor_fst, acceptedDonors, List.filterMap_cons,
      List.filterMap_nil]
    split <;> simp
  | addPatient name g age address =>
    simp only [BloodBank.apply, addPatient_fst, acceptedDonors, List.filterMap_cons,
      List.filterMap_nil]
    split <;> simp
  | displayDonors => simp [BloodBank.apply, displayDonors_fst, acceptedDonors]
  | displayPatients => simp [BloodBank.apply, displayPatients_fst, acceptedDonors]
  | checkBloodAvailability g =>
    simp [BloodBank.apply, checkBloodAvailability_fst, acceptedDonors]
  | checkBloodCompatibility g =>
    simp [BloodBank.apply, checkBloodCompatibility_fst, acceptedDonors]

theorem apply_patients (bb : BloodBank) (op : Op) :
    (bb.apply op).1.patients = bb.patients ++ acceptedPatients [op] := by
  cases op with
  | addDonor name g age address =>
    simp only [BloodBank.apply, addDonor_fst, acceptedPatients, List.filterMap_cons,
      List.filterMap_nil]
    split <;> simp
  | addPatient name g age address =>
    simp only [BloodBank.apply, addPatient_fst, acceptedPatients, List.filterMap_cons,
      List.filterMap_nil]
    split <;> simp
  | displayDonors => simp [BloodBank.apply, displayDonors_fst, acceptedPatients]
  | displayPatients => simp [BloodBank.apply, displayPatients_fst, acceptedPatients]
  | checkBloodAvailability g =>
    simp [BloodBank.apply, checkBloodAvailability_fst, acceptedPatients]
  | checkBloodCompatibility g =>
    simp [BloodBank.apply, checkBloodCompatibility_fst, acceptedPatients]

theorem run_cons (bb : BloodBank) (op : Op) (ops : List Op) :
    bb.run (op :: ops) = (bb.apply op).1.run ops := rfl

theorem run_donors (ops : List Op) (bb : BloodBank) :
    (bb.run ops).donors = bb.donors ++ acceptedDonors ops := by
  induction ops generalizing bb with
  | nil => simp [BloodBank.run, acceptedDonors]
  | cons op ops ih =>
    rw [run_cons, ih, apply_donors, List.append_assoc, ← acceptedDonors_cons]

theorem run_patients (ops : List Op) (bb : BloodBank) :
    (bb.run ops).patients = bb.patients ++ acceptedPatients ops := by
  induction ops generalizing bb with
  | nil => simp [BloodBank.run, acceptedPatients]
  | cons op ops ih =>
    rw [run_cons, ih, apply_patients, List.append_assoc, ← acceptedPatients_cons]

theorem displayDonors_snd (bb : BloodBank) :
    bb.displayDonors.2 =
      if bb.donors = [] then lit "No donors available.\n"
      else lit "\nList of Donors:\n" ++ separatorLine ++ bb.donors.flatMap donorLine ++
        separatorLine := by
  unfold BloodBank.displayDonors
  cases h : bb.donors with
  | nil => rfl
  | cons d ds => rfl

theorem displayPatients_snd (bb : BloodBank) :
    bb.displayPatients.2 =
      if bb.patients = [] then lit "No patients available.\n"
      else lit "\nList of Patients:\n" ++ separatorLine ++ bb.patients.flatMap patientLine ++
        separatorLine := by
  unfold BloodBank.displayPatients
  cases h : bb.patients with
  | nil => rfl
  | cons d ds => rfl

/-- C12: after any sequence of calls made on the empty store, the stored
donors are exactly the `addDonor` calls that passed validation (valid group,
age from 18 to 65), with the fields of the call and in call order, and
`displayDonors` prints one line for each of them in that order; the same holds
for the patients and `displayPatients`, with the `addPatient` calls whose
group is valid.  When nothing has been stored the listing is the line "No
donors available." (or "No patients available.") instead of a list. -/
theorem listing_in_insertion_order (ops : List Op) :
    (BloodBank.empty.run ops).donors = acceptedDonors ops ∧
    (BloodBank.empty.run ops).patients = acceptedPatients ops ∧
    (BloodBank.empty.run ops).displayDonors.2 =
      (if acceptedDonors ops = [] then lit "No donors available.\n"
      else lit "\nList of Donors:\n" ++ separatorLine ++
        (acceptedDonors ops).flatMap donorLine ++ separatorLine) ∧
    (BloodBank.empty.run ops).displayPatients.2 =
      (if acceptedPatients ops = [] then lit "No patients available.\n"
      else lit "\nList of Patients:\n" ++ separatorLine ++
        (acceptedPatients ops).flatMap patientLine ++ separatorLine) ∧
    BloodBank.empty.displayDonors.2 = lit "No donors available.\n" ∧
    BloodBank.empty.displayPatients.2 = lit "No patients available.\n" := by
  have hd : (BloodBank.empty.run ops).donors = acceptedDonors ops := by
    rw [run_donors]
    rfl
  have hp : (BloodBank.empty.run ops).patients = acceptedPatients ops := by
    rw [run_patients]
    rfl
  refine ⟨hd, hp, ?_, ?_, rfl, rfl⟩
  · rw [displayDonors_snd, hd]
  · rw [displayPatients_snd, hp]

/-! Section: Case of the blood group in the Add Donor action -/

theorem toupper_eq_of_sameByteUpToCase (a b : Nat) (h : sameByteUpToCase a b = true) :
    toupper a = toupper b := by
  unfold sameByteUpToCase at h
  have h2 := of_decide_eq_true h
  unfold toupper
  split <;> split <;> omega

theorem toUpperCase_eq_of_sameUpToCase (s t : CppString) (h : sameUpToCase s t = true) :
    toUpperCase s = toUpperCase t := by
  induction s generalizing t with
  | nil =>
    cases t with
    | nil => rfl
    | cons b bs => simp [sameUpToCase] at h
  | cons a as ih =>
    cases t with
    | nil => simp [sameUpToCase] at h
    | cons b bs =>
      simp only [sameUpToCase, Bool.and_eq_true] at h
      simp only [toUpperCase, List.map_cons, List.cons.injEq]
      exact ⟨toupper_eq_of_sameByteUpToCase a b h.1, ih bs h.2⟩

theorem menuCase_addDonor (bb : BloodBank) (name g : CppString) (age : Int)
    (address : CppString) :
    menuCase bb (MenuInput.mk 1 name g age address) =
      ((bb.addDonor name (toUpperCase g) age address).1,
        lit "Enter Donor Name: " ++
        lit "Valid Blood Groups: A+, A-, B+, B-, AB+, AB-, O+, O-\n" ++
        lit "Enter Blood Group: " ++ lit "Enter Age: " ++ lit "Enter Address: " ++
        (bb.addDonor name (toUpperCase g) age address).2) := by
  simp [menuCase]

theorem toUpperCase_a_pos : toUpperCase (lit "a+") = lit "A+" := by decide

theorem valid_A_pos : lit "A+" ∈ bloodGroupValues := by decide

/-- C13: the Add Donor action of the menu (the group typed in is put through
`toUpperCase`, then `addDonor` is called) gives the same store and prints the
same bytes for any two group inputs that differ only in the case of their
letters.  In particular the input "a+" is treated exactly as "A+": the same
outcome, and when the age is accepted the stored `bloodGroup` is "A+". -/
theorem addDonor_action_case_insensitive (bb : BloodBank) (name s t : CppString) (age : Int)
    (address : CppString) (h : sameUpToCase s t = true) :
    menuCase bb (MenuInput.mk 1 name s age address) =
      menuCase bb (MenuInput.mk 1 name t age address) ∧
    bb.addDonor name (toUpperCase s) age address =
      bb.addDonor name (toUpperCase t) age address ∧
    menuCase bb (MenuInput.mk 1 name (lit "a+") age address) =
      menuCase bb (MenuInput.mk 1 name (lit "A+") age address) ∧
    ((18 ≤ age ∧ age ≤ 65) →
      (menuCase bb (MenuInput.mk 1 name (lit "a+") age address)).1.donors =
        bb.donors ++ [Donor.mk name (lit "A+") age address]) ∧
    ((age < 18 ∨ age > 65) →
      (menuCase bb (MenuInput.mk 1 name (lit "a+") age address)).1 = bb) := by
  have hup := toUpperCase_eq_of_sameUpToCase s t h
  have hA : toUpperCase (lit "A+") = lit "A+" := by decide
  refine ⟨?_, ?_, ?_, ?_, ?_⟩
  · rw [menuCase_addDonor, menuCase_addDonor, hup]
  · rw [hup]
  · rw [menuCase_addDonor, menuCase_addDonor, toUpperCase_a_pos, hA]
  · intro hage
    rw [menuCase_addDonor, toUpperCase_a_pos,
      addDonor_success bb name (lit "A+") age address valid_A_pos hage.1 hage.2]
  · intro hage
    rw [menuCase_addDonor, toUpperCase_a_pos,
      addDonor_invalid_age bb name (lit "A+") age address valid_A_pos hage]

/-- Witness of C13: the inputs "ab-" and "Ab-" differ only in case, and the
Add Donor action treats them alike. -/
theorem addDonor_action_case_insensitive_witness :
    sameUpToCase (lit "ab-") (lit "Ab-") = true ∧
    menuCase BloodBank.empty (MenuInput.mk 1 (lit "P") (lit "ab-") 30 (lit "X")) =
      menuCase BloodBank.empty (MenuInput.mk 1 (lit "P") (lit "Ab-") 30 (lit "X")) :=
  ⟨by decide,
    (addDonor_action_case_insensitive BloodBank.empty (lit "P") (lit "ab-") (lit "Ab-") 30
      (lit "X") (by decide)).1⟩

/-! Section: Selections of the menu loop -/

theorem menuCase_other (bb : BloodBank) (inp : MenuInput)
    (h : inp.choice < 1 ∨ 7 < inp.choice) :
    menuCase bb inp = (bb, invalidChoiceMessage) := by
  unfold menuCase
  rw [if_neg (by omega), if_neg (by omega), if_neg (by omega), if_neg (by omega),
    if_neg (by omega), if_neg (by omega), if_neg (by omega)]

theorem menuCase_exit (bb : BloodBank) (inp : MenuInput) (h : inp.choice = 7) :
    menuCase bb inp = (bb, lit "Exiting...\n") := by
  unfold menuCase
  rw [if_neg (by omega), if_neg (by omega), if_neg (by omega), if_neg (by omega),
    if_neg (by omega), if_neg (by omega), if_pos h]

theorem readInt_fst_outside (c : Int) (h : c < 1 ∨ 7 < c) :
    (readInt c).1 < 1 ∨ 7 < (readInt c).1 := by
  unfold readInt intMax intMin
  split
  · right; decide
  · split
    · left; decide
    · exact h

theorem readInt_of_fits (c : Int) (h : intMin ≤ c ∧ c ≤ intMax) : readInt c = (c, false) := by
  unfold readInt
  unfold intMin intMax at *
  rw [if_neg (by omega), if_neg (by omega)]

theorem readInt_of_not_fits (c : Int) (h : c < intMin ∨ intMax < c) :
    (readInt c).2 = true ∧ ((readInt c).1 < 1 ∨ 7 < (readInt c).1) := by
  unfold readInt
  unfold intMin intMax at *
  by_cases h1 : (2147483647 : Int) < c
  · rw [if_pos h1]
    exact ⟨rfl, Or.inr (by decide)⟩
  · rw [if_neg h1, if_pos (by omega)]
    exact ⟨rfl, Or.inl (by decide)⟩

theorem readPass_outside (vars : MenuInput) (inp : TypedInput)
    (h : inp.choice < 1 ∨ 7 < inp.choice) :
    readPass vars inp =
      (MenuInput.mk (readInt inp.choice).1 vars.name vars.bloodGroup vars.age vars.address,
        (readInt inp.choice).2) := by
  have hc := readInt_fst_outside inp.choice h
  unfold readPass
  by_cases hf : (readInt inp.choice).2 = true
  · simp only [hf, if_true]
  · have hf2 : (readInt inp.choice).2 = false := by simpa using hf
    simp only [hf2, Bool.false_eq_true, if_false]
    rw [if_neg (by omega), if_neg (by omega)]

theorem readPass_choice (vars : MenuInput) (inp : TypedInput) :
    (readPass vars inp).1.choice = (readInt inp.choice).1 := by
  unfold readPass
  simp only []
  split
  · rfl
  · split
    · split <;> rfl
    · split <;> rfl

theorem readPass_of_fits (vars : MenuInput) (inp : TypedInput)
    (hc : intMin ≤ inp.choice ∧ inp.choice ≤ intMax) (ha : intMin ≤ inp.age ∧ inp.age ≤ intMax) :
    (readPass vars inp).2 = false ∧ (readPass vars inp).1.choice = inp.choice := by
  refine ⟨?_, by rw [readPass_choice, readInt_of_fits inp.choice hc]⟩
  unfold readPass
  simp only [readInt_of_fits inp.choice hc, readInt_of_fits inp.age ha, Bool.false_eq_true,
    if_false]
  split
  · rfl
  · split <;> rfl

theorem mainLoop_good_cons (fuel : Nat) (st : LoopState) (inp : TypedInput)
    (rest : List TypedInput) (hgood : st.failed = false) :
    mainLoop (fuel + 1) st (inp :: rest) =
      if (readPass st.vars inp).1.choice ≠ 7 then
        mainLoop fuel
          (LoopState.mk (menuCase st.bank (readPass st.vars inp).1).1
            (st.output ++ menuText ++ (menuCase st.bank (readPass st.vars inp).1).2)
            (readPass st.vars inp).2 (afterSwitch (readPass st.vars inp).1)) rest
      else
        MainResult.mk (menuCase st.bank (readPass st.vars inp).1).1
          (st.output ++ menuText ++ (menuCase st.bank (readPass st.vars inp).1).2) (some 0) := by
  rw [mainLoop]
  simp only [hgood, Bool.false_eq_true, if_false]

theorem mainLoop_failed (fuel : Nat) (st : LoopState) (inputs : List TypedInput)
    (hfail : st.failed = true) :
    mainLoop (fuel + 1) st inputs =
      if st.vars.choice ≠ 7 then
        mainLoop fuel
          (LoopState.mk (menuCase st.bank st.vars).1
            (st.output ++ menuText ++ (menuCase st.bank st.vars).2) true
            (afterSwitch st.vars)) inputs
      else
        MainResult.mk (menuCase st.bank st.vars).1
          (st.output ++ menuText ++ (menuCase st.bank st.vars).2) (some 0) := by
  cases inputs <;> simp only [mainLoop, hfail, if_true]

theorem afterSwitch_outside (vars : MenuInput) (h : vars.choice < 1 ∨ 7 < vars.choice) :
    afterSwitch vars = vars := by
  unfold afterSwitch
  rw [if_neg (by omega)]

theorem mainLoop_stuck (fuel : Nat) (st : LoopState) (inputs : List TypedInput)
    (hfail : st.failed = true) (h : st.vars.choice < 1 ∨ 7 < st.vars.choice) :
    (mainLoop fuel st inputs).exitCode = none ∧ (mainLoop fuel st inputs).bank = st.bank := by
  induction fuel generalizing st with
  | zero => exact ⟨rfl, rfl⟩
  | succ n ih =>
    have h7 : st.vars.choice ≠ 7 := by omega
    rw [mainLoop_failed n st inputs hfail, if_pos h7, menuCase_other st.bank st.vars h,
      afterSwitch_outside st.vars h]
    exact ih (LoopState.mk st.bank (st.output ++ menuText ++ invalidChoiceMessage) true st.vars)
      rfl h

theorem mainLoop_exitCode_cases (fuel : Nat) (st : LoopState) (inputs : List TypedInput) :
    (mainLoop fuel st inputs).exitCode = none ∨ (mainLoop fuel st inputs).exitCode = some 0 := by
  induction fuel generalizing st inputs with
  | zero => exact Or.inl rfl
  | succ n ih =>
    by_cases hfail : st.failed = true
    · rw [mainLoop_failed n st inputs hfail]
      split
      · exact ih _ _
      · exact Or.inr rfl
    · have hgood : st.failed = false := by simpa using hfail
      cases inputs with
      | nil =>
        left
        simp [mainLoop, hgood]
      | cons inp rest =>
        rw [mainLoop_good_cons n st inp rest hgood]
        split
        · exact ih _ _
        · exact Or.inr rfl

theorem mainLoop_of_fits (inputs : List TypedInput) (fuel : Nat) (st : LoopState)
    (hgood : st.failed = false) (hlen : inputs.length ≤ fuel)
    (hfit : ∀ i ∈ inputs, (intMin ≤ i.choice ∧ i.choice ≤ intMax) ∧
      (intMin ≤ i.age ∧ i.age ≤ intMax)) :
    (mainLoop fuel st inputs).exitCode = some 0 ↔ ∃ i ∈ inputs, i.choice = 7 := by
  induction inputs generalizing fuel st with
  | nil =>
    cases fuel with
    | zero => simp [mainLoop]
    | succ n => simp [mainLoop, hgood]
  | cons inp rest ih =>
    cases fuel with
    | zero => simp at hlen
    | succ n =>
      have hin := hfit inp (List.mem_cons_self inp rest)
      have hrd := readPass_of_fits st.vars inp hin.1 hin.2
      rw [mainLoop_good_cons n st inp rest hgood, hrd.2]
      by_cases h7 : inp.choice = 7
      · rw [if_neg (by simpa using h7)]
        simp [h7]
      · rw [if_pos h7]
        have ih2 := ih n
          (LoopState.mk (menuCase st.bank (readPass st.vars inp).1).1
            (st.output ++ menuText ++ (menuCase st.bank (readPass st.vars inp).1).2)
            (readPass st.vars inp).2 (afterSwitch (readPass st.vars inp).1))
          hrd.1 (by simpa using hlen) (fun i hi => hfit i (List.mem_cons_of_mem inp hi))
        rw [ih2]
        simp [h7]

theorem readInt_fst_ne_seven (c : Int) (h : c ≠ 7) : (readInt c).1 ≠ 7 := by
  unfold readInt intMax intMin
  split
  · decide
  · split
    · decide
    · exact h

theorem mainLoop_outside (fuel : Nat) (st : LoopState) (inp : TypedInput)
    (rest : List TypedInput) (hgood : st.failed = false)
    (h : inp.choice < 1 ∨ 7 < inp.choice) :
    mainLoop (fuel + 1) st (inp :: rest) =
      mainLoop fuel
        (LoopState.mk st.bank (st.output ++ menuText ++ invalidChoiceMessage)
          (readInt inp.choice).2
          (MenuInput.mk (readInt inp.choice).1 st.vars.name st.vars.bloodGroup st.vars.age
            st.vars.address)) rest := by
  have hc := readInt_fst_outside inp.choice h
  have h7 : (readInt inp.choice).1 ≠ 7 := by omega
  rw [mainLoop_good_cons fuel st inp rest hgood, readPass_outside st.vars inp h, if_pos h7,
    menuCase_other st.bank _ hc, afterSwitch_outside _ hc]

theorem mainLoop_seven (fuel : Nat) (st : LoopState) (inp : TypedInput)
    (rest : List TypedInput) (hgood : st.failed = false) (h : inp.choice = 7) :
    mainLoop (fuel + 1) st (inp :: rest) =
      MainResult.mk st.bank (st.output ++ menuText ++ lit "Exiting...\n") (some 0) := by
  have hc : (readPass st.vars inp).1.choice = 7 := by
    rw [readPass_choice, h]
    rfl
  rw [mainLoop_good_cons fuel st inp rest hgood, if_neg (by simpa using hc),
    menuCase_exit st.bank _ hc]

theorem afterSwitch_choice (vars : MenuInput) : (afterSwitch vars).choice = vars.choice := by
  unfold afterSwitch
  split <;> rfl

theorem mainLoop_failed_never_returns (fuel : Nat) (st : LoopState)
    (inputs : List TypedInput) (hfail : st.failed = true) (h7 : st.vars.choice ≠ 7) :
    (mainLoop fuel st inputs).exitCode = none := by
  induction fuel generalizing st with
  | zero => rfl
  | succ n ih =>
    rw [mainLoop_failed n st inputs hfail, if_pos h7]
    exact ih _ rfl (by rw [afterSwitch_choice]; exact h7)

theorem readPass_age_not_fits (vars : MenuInput) (inp : TypedInput)
    (hc : inp.choice = 1 ∨ inp.choice = 2) (ha : inp.age < intMin ∨ intMax < inp.age) :
    (readPass vars inp).2 = true ∧ (readPass vars inp).1.choice ≠ 7 := by
  have hfit : readInt inp.choice = (inp.choice, false) :=
    readInt_of_fits inp.choice (by unfold intMin intMax; omega)
  have hage := (readInt_of_not_fits inp.age ha).1
  constructor
  · unfold readPass
    simp only [hfit, Bool.false_eq_true, if_false, hc, if_true, hage]
  · rw [readPass_choice, hfit]
    show inp.choice ≠ 7
    omega

/-- C14: in a pass of the menu loop that reads its selection (the stream is in
good state), every integer selection outside 1..7, of any size, prints the
invalid-choice line, leaves the store as it was and goes round again, so the
pass does not return; a selection of 7 leaves the loop and `main` returns 0
without reading further; a selection other than 7 never makes the pass return.
A selection that does not fit an `int` makes the stream fail, after which the
run never returns and never changes the store, whatever is typed later, also
a 7; the same holds, for the return, after an age that does not fit an `int`;
on a failed stream a pass returns exactly when the variable `choice` is 7.
The only exit code is 0, and on input whose integers all fit an `int` the run
returns exactly when one of the selections typed is 7. -/
theorem menu_loop_selection (fuel : Nat) (st : LoopState) (inp : TypedInput)
    (rest : List TypedInput) (hgood : st.failed = false) :
    ((inp.choice < 1 ∨ 7 < inp.choice) →
      menuCase st.bank (readPass st.vars inp).1 = (st.bank, invalidChoiceMessage) ∧
      mainLoop (fuel + 1) st (inp :: rest) =
        mainLoop fuel
          (LoopState.mk st.bank (st.output ++ menuText ++ invalidChoiceMessage)
            (readInt inp.choice).2
            (MenuInput.mk (readInt inp.choice).1 st.vars.name st.vars.bloodGroup st.vars.age
              st.vars.address)) rest ∧
      mainLoop 1 st (inp :: rest) =
        MainResult.mk st.bank (st.output ++ menuText ++ invalidChoiceMessage) none) ∧
    (inp.choice = 7 →
      mainLoop (fuel + 1) st (inp :: rest) =
        MainResult.mk st.bank (st.output ++ menuText ++ lit "Exiting...\n") (some 0)) ∧
    (inp.choice ≠ 7 →
      (mainLoop 1 st (inp :: rest)).exitCode = none ∧
      mainLoop (fuel + 1) st (inp :: rest) =
        mainLoop fuel
          (LoopState.mk (menuCase st.bank (readPass st.vars inp).1).1
            (st.output ++ menuText ++ (menuCase st.bank (readPass st.vars inp).1).2)
            (readPass st.vars inp).2 (afterSwitch (readPass st.vars inp).1)) rest) ∧
    ((inp.choice < intMin ∨ intMax < inp.choice) →
      ∀ (n : Nat) (later : List TypedInput),
        (mainLoop n st (inp :: later)).exitCode = none ∧
        (mainLoop n st (inp :: later)).bank = st.bank) ∧
    (((inp.choice = 1 ∨ inp.choice = 2) ∧ (inp.age < intMin ∨ intMax < inp.age)) →
      ∀ (n : Nat) (later : List TypedInput),
        (mainLoop n st (inp :: later)).exitCode = none) ∧
    (∀ (n : Nat) (st2 : LoopState) (inputs : List TypedInput),
      st2.failed = true →
      (((mainLoop 1 st2 inputs).exitCode = some 0 ↔ st2.vars.choice = 7) ∧
        (st2.vars.choice ≠ 7 → (mainLoop n st2 inputs).exitCode = none))) ∧
    (∀ (n : Nat) (inputs : List TypedInput),
      (mainLoop n st inputs).exitCode = none ∨ (mainLoop n st inputs).exitCode = some 0) ∧
    (∀ (n : Nat) (inputs : List TypedInput),
      inputs.length ≤ n →
      (∀ i ∈ inputs, (intMin ≤ i.choice ∧ i.choice ≤ intMax) ∧
        (intMin ≤ i.age ∧ i.age ≤ intMax)) →
      (((mainLoop n st inputs).exitCode = some 0 ↔ ∃ i ∈ inputs, i.choice = 7) ∧
        ((main n inputs).exitCode = some 0 ↔ ∃ i ∈ inputs, i.choice = 7))) := by
  refine ⟨?_, mainLoop_seven fuel st inp rest hgood, ?_, ?_, ?_, ?_,
    fun n inputs => mainLoop_exitCode_cases n st inputs, ?_⟩
  · intro h
    have hc := readInt_fst_outside inp.choice h
    refine ⟨?_, mainLoop_outside fuel st inp rest hgood h, ?_⟩
    · rw [readPass_outside st.vars inp h]
      exact menuCase_other st.bank _ hc
    · rw [mainLoop_outside 0 st inp rest hgood h]
      rfl
  · intro h
    have hc : (readPass st.vars inp).1.choice ≠ 7 := by
      rw [readPass_choice]
      exact readInt_fst_ne_seven inp.choice h
    constructor
    · rw [mainLoop_good_cons 0 st inp rest hgood, if_pos hc]
      rfl
    · rw [mainLoop_good_cons fuel st inp rest hgood, if_pos hc]
  · intro h n later
    have hnf := readInt_of_not_fits inp.choice h
    have hout : inp.choice < 1 ∨ 7 < inp.choice := by
      unfold intMin intMax at h
      omega
    cases n with
    | zero => exact ⟨rfl, rfl⟩
    | succ m =>
      rw [mainLoop_outside m st inp later hgood hout]
      exact mainLoop_stuck m _ later hnf.1 hnf.2
  · intro h n later
    have hrd := readPass_age_not_fits st.vars inp h.1 h.2
    cases n with
    | zero => rfl
    | succ m =>
      rw [mainLoop_good_cons m st inp later hgood, if_pos hrd.2]
      exact mainLoop_failed_never_returns m _ later hrd.1
        (by rw [afterSwitch_choice]; exact hrd.2)
  · intro n st2 inputs hfail
    refine ⟨?_, fun h7 => mainLoop_failed_never_returns n st2 inputs hfail h7⟩
    rw [mainLoop_failed 0 st2 inputs hfail]
    by_cases h7 : st2.vars.choice = 7
    · rw [if_neg (by simpa using h7)]
      simp [h7]
    · rw [if_pos h7]
      simp [h7, mainLoop]
  · intro n inputs hlen hfit
    exact ⟨mainLoop_of_fits inputs n st hgood hlen hfit,
      mainLoop_of_fits inputs n initialState rfl hlen hfit⟩

/-- Witness of C14: on a store with one donor, the selection 9 does not make
its pass return and a following 7 returns 0, while the selection 4294967303,
which does not fit an `int`, followed by 7 has not returned after 5 passes. -/
theorem menu_loop_selection_witness :
    ((9 : Int) ≠ 7 ∧
      (mainLoop 1 (LoopState.mk (BloodBank.mk [Donor.mk (lit "P") (lit "O-") 30 (lit "X")] [])
        [] false (MenuInput.mk 0 [] [] 0 []))
        [TypedInput.mk 9 [] [] 0 [], TypedInput.mk 7 [] [] 0 []]).exitCode = none) ∧
    (mainLoop 2 (LoopState.mk (BloodBank.mk [Donor.mk (lit "P") (lit "O-") 30 (lit "X")] [])
        [] false (MenuInput.mk 0 [] [] 0 []))
        [TypedInput.mk 9 [] [] 0 [], TypedInput.mk 7 [] [] 0 []]).exitCode = some 0 ∧
    (((4294967303 : Int) < intMin ∨ intMax < (4294967303 : Int)) ∧
      (mainLoop 5 (LoopState.mk (BloodBank.mk [Donor.mk (lit "P") (lit "O-") 30 (lit "X")] [])
        [] false (MenuInput.mk 0 [] [] 0 []))
        [TypedInput.mk 4294967303 [] [] 0 [], TypedInput.mk 7 [] [] 0 []]).exitCode = none) :=
  ⟨⟨by decide,
      ((menu_loop_selection 0
        (LoopState.mk (BloodBank.mk [Donor.mk (lit "P") (lit "O-") 30 (lit "X")] [])
          [] false (MenuInput.mk 0 [] [] 0 []))
        (TypedInput.mk 9 [] [] 0 []) [TypedInput.mk 7 [] [] 0 []] rfl).2.2.1 (by decide)).1⟩,
    by decide,
    ⟨by decide,
      ((menu_loop_selection 0
        (LoopState.mk (BloodBank.mk [Donor.mk (lit "P") (lit "O-") 30 (lit "X")] [])
          [] false (MenuInput.mk 0 [] [] 0 []))
        (TypedInput.mk 4294967303 [] [] 0 []) [] rfl).2.2.2.1 (by decide) 5
          [TypedInput.mk 7 [] [] 0 []]).1⟩⟩

/-! Section: Rejected additions -/

theorem addDonor_patients (bb : BloodBank) (name g : CppString) (age : Int)
    (address : CppString) :
    (bb.addDonor name g age address).1.patients = bb.patients := by
  rw [addDonor_fst]
  split <;> rfl

theorem addDonor_error_iff (bb : BloodBank) (name g : CppString) (age : Int)
    (address : CppString) :
    ((bb.addDonor name g age address).2 = invalidBloodGroupMessage ∨
      (bb.addDonor name g age address).2 = invalidAgeMessage) ↔
    (g ∉ bloodGroupValues ∨ age < 18 ∨ age > 65) := by
  by_cases hg : g ∈ bloodGroupValues
  · by_cases ha : age < 18 ∨ age > 65
    · rw [addDonor_invalid_age bb name g age address hg ha]
      simp [ha]
    · rw [addDonor_success bb name g age address hg (by omega) (by omega)]
      have h1 : lit "Donor '" ++ name ++ lit "' added successfully.\n" ≠
          invalidBloodGroupMessage :=
        ne_of_head_ne (donor_confirmation_head _ _) invalidBloodGroupMessage_head (by decide)
      have h2 : lit "Donor '" ++ name ++ lit "' added successfully.\n" ≠ invalidAgeMessage :=
        ne_of_head_ne (donor_confirmation_head _ _) invalidAgeMessage_head (by decide)
      constructor
      · intro h
        rcases h with h | h
        · exact absurd h h1
        · exact absurd h h2
      · intro h
        rcases h with h | h
        · exact absurd hg h
        · exact absurd h ha
  · rw [addDonor_invalid_group bb name g age address hg]
    simp [hg]

/-- C15: a rejected addition changes nothing.  When `addDonor` fails (it
prints the invalid-blood-group or the invalid-age error, which happens exactly
when the group is not valid or the age is below 18 or above 65) the store
after the call is the store before it, donors and patients alike; the same
holds when `addPatient` fails (invalid group); and `addDonor`, also when it
succeeds, leaves the patient sequence as it was. -/
theorem rejected_additions_atomic (bb : BloodBank) (name g : CppString) (age : Int)
    (address : CppString) :
    (((bb.addDonor name g age address).2 = invalidBloodGroupMessage ∨
        (bb.addDonor name g age address).2 = invalidAgeMessage) ↔
      (g ∉ bloodGroupValues ∨ age < 18 ∨ age > 65)) ∧
    ((g ∉ bloodGroupValues ∨ age < 18 ∨ age > 65) →
      (bb.addDonor name g age address).1.donors = bb.donors ∧
      (bb.addDonor name g age address).1.patients = bb.patients) ∧
    (g ∉ bloodGroupValues →
      (bb.addPatient name g age address).2 = invalidBloodGroupMessage ∧
      (bb.addPatient name g age address).1.donors = bb.donors ∧
      (bb.addPatient name g age address).1.patients = bb.patients) ∧
    (bb.addDonor name g age address).1.patients = bb.patients := by
  refine ⟨addDonor_error_iff bb name g age address, ?_, ?_, addDonor_patients bb name g age address⟩
  · intro h
    have hstore : (bb.addDonor name g age address).1 = bb := by
      rw [addDonor_fst, if_neg]
      intro hok
      rcases h with h | h
      · exact h hok.1
      · omega
    rw [hstore]
    exact ⟨rfl, rfl⟩
  · intro hg
    rw [addPatient_invalid_group bb name g age address hg]
    exact ⟨rfl, rfl, rfl⟩

/-- Witness of C15: a donor of age 70 and a patient of group "C+" are
refused, and the store with one donor and one patient stays as it was. -/
theorem rejected_additions_atomic_witness :
    ((lit "O+" ∉ bloodGroupValues ∨ (70 : Int) < 18 ∨ (70 : Int) > 65) ∧
      ((BloodBank.mk [Donor.mk (lit "P") (lit "O-") 30 (lit "X")]
        [Patient.mk (lit "Q") (lit "A+") 9 (lit "Y")]).addDonor
          (lit "R") (lit "O+") 70 (lit "Z")).1.donors =
        [Donor.mk (lit "P") (lit "O-") 30 (lit "X")]) ∧
    (lit "C+" ∉ bloodGroupValues ∧
      ((BloodBank.mk [Donor.mk (lit "P") (lit "O-") 30 (lit "X")]
        [Patient.mk (lit "Q") (lit "A+") 9 (lit "Y")]).addPatient
          (lit "R") (lit "C+") 70 (lit "Z")).1.patients =
        [Patient.mk (lit "Q") (lit "A+") 9 (lit "Y")]) :=
  ⟨⟨by decide,
      ((rejected_additions_atomic (BloodBank.mk [Donor.mk (lit "P") (lit "O-") 30 (lit "X")]
        [Patient.mk (lit "Q") (lit "A+") 9 (lit "Y")]) (lit "R") (lit "O+") 70 (lit "Z")).2.1
        (by decide)).1⟩,
    ⟨by decide,
      ((rejected_additions_atomic (BloodBank.mk [Donor.mk (lit "P") (lit "O-") 30 (lit "X")]
        [Patient.mk (lit "Q") (lit "A+") 9 (lit "Y")]) (lit "R") (lit "C+") 70 (lit "Z")).2.2.1
        (by decide)).2.2⟩⟩

/-! Section: Counts -/

theorem countDonors_append_singleton (donors : List Donor) (d : Donor) (h : CppString) :
    countDonors (donors ++ [d]) h =
      countDonors donors h + (if d.bloodGroup = h then 1 else 0) := by
  rw [countDonors_eq_length_filter, countDonors_eq_length_filter, List.filter_append,
    List.length_append]
  by_cases hd : d.bloodGroup = h <;> simp [hd]

theorem checkBloodAvailability_snd_of_donors (bb bb2 : BloodBank) (h : CppString)
    (hd : countDonors bb2.donors h = countDonors bb.donors h) :
    (bb2.checkBloodAvailability h).2 = (bb.checkBloodAvailability h).2 := by
  unfold BloodBank.checkBloodAvailability
  split
  · rfl
  · simp only [hd]

/-- C17: a successful `addDonor` with group `g` makes the count that
`checkBloodAvailability` computes for `g` exactly one larger and leaves the
count of every other group as it was; a failed `addDonor`, and every
`addPatient` whether it succeeds or not, leave the count of every group, and
with it what `checkBloodAvailability` prints, as they were. -/
theorem counts_after_additions (bb : BloodBank) (name g : CppString) (age : Int)
    (address : CppString) (h : CppString) :
    ((g ∈ bloodGroupValues ∧ 18 ≤ age ∧ age ≤ 65) →
      countDonors (bb.addDonor name g age address).1.donors g = countDonors bb.donors g + 1 ∧
      ((bb.addDonor name g age address).1.checkBloodAvailability g).2 =
        lit "Blood Group " ++ g ++ lit " is available with " ++
          showNat (countDonors bb.donors g + 1) ++ lit " donors.\n" ∧
      (h ≠ g →
        countDonors (bb.addDonor name g age address).1.donors h = countDonors bb.donors h ∧
        ((bb.addDonor name g age address).1.checkBloodAvailability h).2 =
          (bb.checkBloodAvailability h).2)) ∧
    ((g ∉ bloodGroupValues ∨ age < 18 ∨ age > 65) →
      countDonors (bb.addDonor name g age address).1.donors h = countDonors bb.donors h ∧
      ((bb.addDonor name g age address).1.checkBloodAvailability h).2 =
        (bb.checkBloodAvailability h).2) ∧
    countDonors (bb.addPatient name g age address).1.donors h = countDonors bb.donors h ∧
    ((bb.addPatient name g age address).1.checkBloodAvailability h).2 =
      (bb.checkBloodAvailability h).2 := by
  have hpat : countDonors (bb.addPatient name g age address).1.donors h =
      countDonors bb.donors h := by
    rw [addPatient_fst]
    split <;> rfl
  refine ⟨?_, ?_, hpat, checkBloodAvailability_snd_of_donors _ _ h hpat⟩
  · intro hok
    rw [addDonor_success bb name g age address hok.1 hok.2.1 hok.2.2]
    have hg : countDonors (bb.donors ++ [Donor.mk name g age address]) g =
        countDonors bb.donors g + 1 := by
      rw [countDonors_append_singleton]
      simp
    refine ⟨hg, ?_, ?_⟩
    · have hv := (isValidBloodGroup_iff_mem g).2 hok.1
      simp only [BloodBank.checkBloodAvailability, hv, Bool.not_true, Bool.false_eq_true,
        if_false, hg]
    · intro hne
      have hh : countDonors (bb.donors ++ [Donor.mk name g age address]) h =
          countDonors bb.donors h := by
        rw [countDonors_append_singleton]
        have hne2 : ¬ (g = h) := fun e => hne e.symm
        simp [hne2]
      exact ⟨hh, checkBloodAvailability_snd_of_donors _ _ h hh⟩
  · intro hbad
    have hstore : (bb.addDonor name g age address).1 = bb := by
      rw [addDonor_fst, if_neg]
      intro hok
      rcases hbad with hb | hb
      · exact hb hok.1
      · omega
    rw [hstore]
    exact ⟨rfl, rfl⟩

/-- Witness of C17: adding a donor of group B+ and age 40 to a store with one
B+ donor makes the count of B+ go from 1 to 2. -/
theorem counts_after_additions_witness :
    (lit "B+" ∈ bloodGroupValues ∧ (18 : Int) ≤ 40 ∧ (40 : Int) ≤ 65) ∧
    countDonors ((BloodBank.mk [Donor.mk (lit "P") (lit "B+") 30 (lit "X")] []).addDonor
        (lit "Q") (lit "B+") 40 (lit "Y")).1.donors (lit "B+") =
      countDonors [Donor.mk (lit "P") (lit "B+") 30 (lit "X")] (lit "B+") + 1 :=
  ⟨by decide,
    ((counts_after_additions (BloodBank.mk [Donor.mk (lit "P") (lit "B+") 30 (lit "X")] [])
      (lit "Q") (lit "B+") 40 (lit "Y") (lit "A+")).1 (by decide)).1⟩

/-! Section: The rows of the AB+ report -/

theorem indicator_sum_eq_one :
    ∀ x ∈ bloodGroupValues,
      ((compatibleGroups (lit "AB+")).map
        (fun g => if x = g then 1 else 0)).sum = 1 := by
  decide

theorem countDonors_cons (d : Donor) (ds : List Donor) (g : CppString) :
    countDonors (d :: ds) g = (if d.bloodGroup = g then 1 else 0) + countDonors ds g := by
  rw [countDonors_eq_length_filter, countDonors_eq_length_filter]
  by_cases h : d.bloodGroup = g
  · simp [h]; omega
  · simp [h]

theorem sum_counts_eq_length (groups : List CppString) (donors : List Donor)
    (hind : ∀ d ∈ donors, (groups.map (fun g => if d.bloodGroup = g then 1 else 0)).sum = 1) :
    (groups.map (fun g => countDonors donors g)).sum = donors.length := by
  induction donors with
  | nil =>
    have hz : ∀ l : List CppString, (l.map (fun g => countDonors [] g)).sum = 0 := by
      intro l
      induction l with
      | nil => rfl
      | cons a l ih => simp only [List.map_cons, List.sum_cons, ih]; rfl
    exact hz groups
  | cons d ds ih =>
    have h1 := hind d (List.mem_cons_self d ds)
    have h2 := ih (fun e he => hind e (List.mem_cons_of_mem d he))
    have hfun : (fun g => countDonors (d :: ds) g) =
        (fun g => (if d.bloodGroup = g then 1 else 0) + countDonors ds g) := by
      funext g
      exact countDonors_cons d ds g
    rw [hfun, List.sum_map_add, h1, h2, List.length_cons]
    omega

/-- C16: in every store reached from the empty store by a sequence of calls,
what `checkBloodCompatibility` prints for AB+ is the header, eight lines
"Blood Group g: n donors available", one for each of the eight groups, and
the closing separator, where the number n of a line is the number of stored
donors of its group, and the eight numbers add up to the number of stored
donors: every donor is counted in exactly one row. -/
theorem AB_pos_report_counts_sum (ops : List Op) :
    ∃ rows : List (CppString × Nat),
      ((BloodBank.empty.run ops).checkBloodCompatibility (lit "AB+")).2 =
        lit "\nCompatible blood groups for " ++ lit "AB+" ++ lit ":\n" ++
          (List.replicate 60 45 ++ lit "\n") ++
          rows.flatMap (fun row =>
            lit "Blood Group " ++ row.1 ++ lit ": " ++ showNat row.2 ++
              lit " donors available\n") ++
          (List.replicate 60 45 ++ lit "\n") ∧
      rows.length = 8 ∧
      rows.map Prod.fst =
        [lit "A+", lit "A-", lit "AB+", lit "AB-", lit "B+", lit "B-", lit "O+", lit "O-"] ∧
      (∀ row ∈ rows,
        row.2 = ((BloodBank.empty.run ops).donors.filter
          (fun d => decide (d.bloodGroup = row.1))).length ∧
        row.2 = countDonors (BloodBank.empty.run ops).donors row.1) ∧
      (rows.map Prod.snd).sum = (BloodBank.empty.run ops).donors.length := by
  have hinv := (run_preserves_invariant ops BloodBank.empty
    (fun d hmem => absurd hmem (List.not_mem_nil d))
    (fun p hmem => absurd hmem (List.not_mem_nil p))).1
  refine ⟨(compatibleGroups (lit "AB+")).map
    (fun g => (g, ((BloodBank.empty.run ops).donors.filter
      (fun d => decide (d.bloodGroup = g))).length)), ?_, ?_, ?_, ?_, ?_⟩
  · rw [checkBloodCompatibility_output _ (lit "AB+") valid_AB_pos]
    exact reportOf_bytes (BloodBank.empty.run ops).donors (lit "AB+")
      (compatibleGroups (lit "AB+"))
  · rw [List.length_map, compatibleGroups_AB_pos]
    rfl
  · rw [List.map_map]
    have hid : (Prod.fst ∘ fun g : CppString =>
        (g, ((BloodBank.empty.run ops).donors.filter
          (fun d => decide (d.bloodGroup = g))).length)) = id := rfl
    rw [hid, List.map_id, compatibleGroups_AB_pos]
  · intro row hrow
    rcases List.mem_map.1 hrow with ⟨g, _, hg⟩
    rw [← hg]
    exact ⟨rfl, (countDonors_eq_length_filter _ g).symm⟩
  · rw [List.map_map]
    have hcomp : (Prod.snd ∘ fun g : CppString =>
        (g, ((BloodBank.empty.run ops).donors.filter
          (fun d => decide (d.bloodGroup = g))).length)) =
        fun g => countDonors (BloodBank.empty.run ops).donors g := by
      funext g
      exact (countDonors_eq_length_filter _ g).symm
    rw [hcomp]
    exact sum_counts_eq_length _ _ (fun d hd => indicator_sum_eq_one d.bloodGroup (hinv d hd).1)

/-! Section: The compatibility relation as an order -/

theorem compatible_refl : ∀ d ∈ bloodGroupValues, d ∈ compatibleGroups d := by
  decide

theorem compatible_antisymm :
    ∀ d ∈ bloodGroupValues, ∀ r ∈ bloodGroupValues,
      d ∈ compatibleGroups r → r ∈ compatibleGroups d → d = r := by
  decide

theorem compatible_subset :
    ∀ m ∈ bloodGroupValues, ∀ r ∈ bloodGroupValues,
      m ∈ compatibleGroups r → ∀ d ∈ compatibleGroups m, d ∈ compatibleGroups r := by
  decide

/-- C18: the relation "donor group `d` is in the compatible set of recipient
group `r`" of `checkBloodCompatibility` is a partial order on the eight blood
groups: every group is compatible with itself; if `d` is compatible with `r`
and `r` with `d` then `d = r`; if `d` is compatible with `m` and `m` with `r`
then `d` is compatible with `r`. -/
theorem compatibility_partial_order (d m r : CppString) (hd : d ∈ bloodGroupValues)
    (hm : m ∈ bloodGroupValues) (hr : r ∈ bloodGroupValues) :
    d ∈ compatibleGroups d ∧
    (d ∈ compatibleGroups r → r ∈ compatibleGroups d → d = r) ∧
    (d ∈ compatibleGroups m → m ∈ compatibleGroups r → d ∈ compatibleGroups r) :=
  ⟨compatible_refl d hd, compatible_antisymm d hd r hr,
    fun hdm hmr => compatible_subset m hm r hr hmr d hdm⟩

/-- Witness of C18: O- is compatible with A-, A- with AB-, hence O- with AB-. -/
theorem compatibility_partial_order_witness :
    (lit "O-" ∈ bloodGroupValues ∧ lit "A-" ∈ bloodGroupValues ∧
      lit "AB-" ∈ bloodGroupValues) ∧
    lit "O-" ∈ compatibleGroups (lit "A-") ∧ lit "A-" ∈ compatibleGroups (lit "AB-") ∧
    lit "O-" ∈ compatibleGroups (lit "AB-") :=
  ⟨by decide, by decide, by decide,
    (compatibility_partial_order (lit "O-") (lit "A-") (lit "AB-") (by decide) (by decide)
      (by decide)).2.2 (by decide) (by decide)⟩

/-! Section: The iteration order of the set -/

theorem strLt_trans (a b c : CppString) (hab : strLt a b = true) (hbc : strLt b c = true) :
    strLt a c = true := by
  induction a generalizing b c with
  | nil =>
    cases b with
    | nil => simp [strLt] at hab
    | cons y ys =>
      cases c with
      | nil => simp [strLt] at hbc
      | cons z zs => simp [strLt]
  | cons x xs ih =>
    cases b with
    | nil => simp [strLt] at hab
    | cons y ys =>
      cases c with
      | nil => simp [strLt] at hbc
      | cons z zs =>
        simp only [strLt] at hab hbc ⊢
        by_cases hxy : x < y
        · by_cases hyz : y < z
          · have hxz : x < z := by omega
            simp [hxz]
          · by_cases hzy : z < y
            · simp [hyz, hzy] at hbc
            · have hxz : x < z := by omega
              simp [hxz]
        · by_cases hyx : y < x
          · simp [hxy, hyx] at hab
          · simp only [hxy, hyx, if_false] at hab
            by_cases hyz : y < z
            · have hxz : x < z := by omega
              simp [hxz]
            · by_cases hzy : z < y
              · simp [hyz, hzy] at hbc
              · simp only [hyz, hzy, if_false] at hbc
                have h1 : ¬ x < z := by omega
                have h2 : ¬ z < x := by omega
                simp only [h1, h2, if_false]
                exact ih ys zs hab hbc

theorem mem_setInsert (x y : CppString) (s : List CppString) :
    y ∈ setInsert x s ↔ (y = x ∨ y ∈ s) := by
  induction s with
  | nil => simp [setInsert]
  | cons z zs ih =>
    unfold setInsert
    by_cases h1 : strLt x z = true
    · simp [h1]
    · by_cases h2 : strLt z x = true
      · simp only [h1, h2, if_true, if_false, List.mem_cons, ih, Bool.false_eq_true]
        tauto
      · have hxz : x = z :=
          (strLt_equiv_iff x z).1 ⟨by simpa using h1, by simpa using h2⟩
        rw [if_neg h1, if_neg h2, List.mem_cons, hxz]
        tauto

theorem setInsert_sorted (x : CppString) (s : List CppString)
    (hs : s.Pairwise (fun a b => strLt a b = true)) :
    (setInsert x s).Pairwise (fun a b => strLt a b = true) := by
  induction s with
  | nil => simp [setInsert]
  | cons z zs ih =>
    have hz := List.pairwise_cons.1 hs
    unfold setInsert
    by_cases h1 : strLt x z = true
    · simp only [h1, if_true]
      refine List.pairwise_cons.2 ⟨?_, hs⟩
      intro y hy
      rcases List.mem_cons.1 hy with hyz | hyzs
      · rw [hyz]; exact h1
      · exact strLt_trans x z y h1 (hz.1 y hyzs)
    · by_cases h2 : strLt z x = true
      · simp only [h1, h2, if_true, if_false, Bool.false_eq_true]
        refine List.pairwise_cons.2 ⟨?_, ih hz.2⟩
        intro y hy
        rcases (mem_setInsert x y zs).1 hy with hyx | hyzs
        · rw [hyx]; exact h2
        · exact hz.1 y hyzs
      · simp only [h1, h2, if_false, Bool.false_eq_true]
        exact hs

theorem foldl_setInsert_sorted (init acc : List CppString)
    (hacc : acc.Pairwise (fun a b => strLt a b = true)) :
    (init.foldl (fun s x => setInsert x s) acc).Pairwise (fun a b => strLt a b = true) := by
  induction init generalizing acc with
  | nil => exact hacc
  | cons x xs ih => exact ih (setInsert x acc) (setInsert_sorted x acc hacc)

theorem mem_foldl_setInsert (init acc : List CppString) (y : CppString) :
    y ∈ init.foldl (fun s x => setInsert x s) acc ↔ (y ∈ acc ∨ y ∈ init) := by
  induction init generalizing acc with
  | nil => simp
  | cons x xs ih =>
    rw [List.foldl_cons, ih, mem_setInsert, List.mem_cons]
    tauto

theorem mkSet_sorted (init : List CppString) :
    (mkSet init).Pairwise (fun a b => strLt a b = true) :=
  foldl_setInsert_sorted init [] List.Pairwise.nil

theorem mem_mkSet (init : List CppString) (y : CppString) : y ∈ mkSet init ↔ y ∈ init := by
  unfold mkSet
  rw [mem_foldl_setInsert]
  simp

theorem sorted_nodup (l : List CppString) (hl : l.Pairwise (fun a b => strLt a b = true)) :
    l.Nodup := by
  refine List.Pairwise.imp ?_ hl
  intro a b hab heq
  rw [heq, strLt_irrefl] at hab
  exact Bool.false_ne_true hab

theorem sorted_ext (l₁ l₂ : List CppString)
    (h₁ : l₁.Pairwise (fun a b => strLt a b = true))
    (h₂ : l₂.Pairwise (fun a b => strLt a b = true))
    (hmem : ∀ g, g ∈ l₁ ↔ g ∈ l₂) : l₁ = l₂ := by
  haveI : IsAntisymm CppString (fun a b => strLt a b = true) :=
    ⟨fun a b hab hba => by
      have haa := strLt_trans a b a hab hba
      rw [strLt_irrefl] at haa
      exact absurd haa Bool.false_ne_true⟩
  have hperm : l₁.Perm l₂ :=
    (List.perm_ext_iff_of_nodup (sorted_nodup l₁ h₁) (sorted_nodup l₂ h₂)).2 hmem
  exact List.eq_of_perm_of_sorted hperm h₁ h₂

theorem compatibleGroups_sorted (r : CppString) :
    (compatibleGroups r).Pairwise (fun a b => strLt a b = true) := by
  unfold compatibleGroups
  split_ifs <;> first | exact mkSet_sorted _ | exact List.Pairwise.nil

theorem reportOf_bytes_groups (donors : List Donor) (r : CppString)
    (groups : List CppString) :
    reportOf donors r groups =
      lit "\nCompatible blood groups for " ++ r ++ lit ":\n" ++
        (List.replicate 60 45 ++ lit "\n") ++
        groups.flatMap (fun g =>
          lit "Blood Group " ++ g ++ lit ": " ++
            showNat (donors.filter (fun d => decide (d.bloodGroup = g))).length ++
            lit " donors available\n") ++
        (List.replicate 60 45 ++ lit "\n") := by
  rw [reportOf_bytes, List.flatMap_map]

/-- C19: for every valid recipient, what `checkBloodCompatibility` prints is
the header, then one line "Blood Group g: n donors available" for each group
g of the set `compatibleGroups`, in the order of that set, then the closing
separator; that order is strictly ascending in the byte-lexicographic order
of the group string (A+, A-, AB+, AB-, B+, B-, O+, O- for the recipient AB+).
The order does not depend on the order in which the groups are written in the
initializer list: a set built from a list is always strictly ascending, holds
exactly the elements of the list, and two lists with the same elements give
the same set. -/
theorem report_rows_ascending (bb : BloodBank) (r : CppString) (hr : r ∈ bloodGroupValues) :
    (bb.checkBloodCompatibility r).2 =
      lit "\nCompatible blood groups for " ++ r ++ lit ":\n" ++
        (List.replicate 60 45 ++ lit "\n") ++
        (compatibleGroups r).flatMap (fun g =>
          lit "Blood Group " ++ g ++ lit ": " ++
            showNat (bb.donors.filter (fun d => decide (d.bloodGroup = g))).length ++
            lit " donors available\n") ++
        (List.replicate 60 45 ++ lit "\n") ∧
    (compatibleGroups r).Pairwise (fun a b => strLt a b = true) ∧
    (∀ g, g ∈ compatibleGroups r ↔ g ∈ specAcceptableDonors r) ∧
    (bb.checkBloodCompatibility (lit "AB+")).2 =
      lit "\nCompatible blood groups for " ++ lit "AB+" ++ lit ":\n" ++
        (List.replicate 60 45 ++ lit "\n") ++
        [lit "A+", lit "A-", lit "AB+", lit "AB-", lit "B+", lit "B-", lit "O+",
          lit "O-"].flatMap (fun g =>
          lit "Blood Group " ++ g ++ lit ": " ++
            showNat (bb.donors.filter (fun d => decide (d.bloodGroup = g))).length ++
            lit " donors available\n") ++
        (List.replicate 60 45 ++ lit "\n") ∧
    (bb.checkBloodCompatibility r).2 = reportOf bb.donors r (compatibleGroups r) ∧
    compatibleGroups (lit "AB+") =
      [lit "A+", lit "A-", lit "AB+", lit "AB-", lit "B+", lit "B-", lit "O+", lit "O-"] ∧
    (∀ init : List CppString,
      (mkSet init).Pairwise (fun a b => strLt a b = true) ∧ ∀ g, g ∈ mkSet init ↔ g ∈ init) ∧
    (∀ init init2 : List CppString, (∀ g, g ∈ init ↔ g ∈ init2) → mkSet init = mkSet init2) := by
  refine ⟨?_, compatibleGroups_sorted r, fun g => mem_compatibleGroups_iff r g hr, ?_,
    checkBloodCompatibility_output bb r hr,
    compatibleGroups_AB_pos, fun init => ⟨mkSet_sorted init, mem_mkSet init⟩, ?_⟩
  · rw [checkBloodCompatibility_output bb r hr]
    exact reportOf_bytes_groups bb.donors r (compatibleGroups r)
  · rw [checkBloodCompatibility_output bb (lit "AB+") valid_AB_pos, reportOf_bytes_groups,
      compatibleGroups_AB_pos]
  · intro init init2 hmem
    refine sorted_ext _ _ (mkSet_sorted init) (mkSet_sorted init2) ?_
    intro g
    rw [mem_mkSet, mem_mkSet]
    exact hmem g

/-- Witness of C19: the report printed for the recipient B+ in a store with
one O+ donor, and the ascending order of its rows. -/
theorem report_rows_ascending_witness :
    lit "B+" ∈ bloodGroupValues ∧
    ((BloodBank.mk [Donor.mk (lit "P") (lit "O+") 30 (lit "X")] []).checkBloodCompatibility
        (lit "B+")).2 =
      lit "\nCompatible blood groups for " ++ lit "B+" ++ lit ":\n" ++
        (List.replicate 60 45 ++ lit "\n") ++
        (compatibleGroups (lit "B+")).flatMap (fun g =>
          lit "Blood Group " ++ g ++ lit ": " ++
            showNat ([Donor.mk (lit "P") (lit "O+") 30 (lit "X")].filter
              (fun d => decide (d.bloodGroup = g))).length ++
            lit " donors available\n") ++
        (List.replicate 60 45 ++ lit "\n") ∧
    (compatibleGroups (lit "B+")).Pairwise (fun a b => strLt a b = true) :=
  ⟨by decide,
    (report_rows_ascending (BloodBank.mk [Donor.mk (lit "P") (lit "O+") 30 (lit "X")] [])
      (lit "B+") (by decide)).1,
    (report_rows_ascending (BloodBank.mk [Donor.mk (lit "P") (lit "O+") 30 (lit "X")] [])
      (lit "B+") (by decide)).2.1⟩

end BloodBankSpec
